import Mathlib

/-!
# Verification of the SRDB Dispute Canonicalization Engine

Shallow embedding of `src/app/rag/vector_store.py` and `src/app/rag/embedding.py`.

Modelling conventions:
* Python floats are modelled as exact rationals (`ℚ`).
* The PostgreSQL/pgvector store is modelled as an explicit record of tables
  (lists of rows, in table order).  `SELECT ... LIMIT 1` without `ORDER BY`
  returns the first matching row in table order; `ORDER BY` is modelled by a
  stable insertion sort, so ties keep table order.
* The pgvector cosine-distance operator `<=>` is external to the repository;
  it is modelled as an explicit distance-function parameter
  `dist : String → String → ℚ` taking the stored literal and the query literal.
* The OpenAI embeddings client is external; the API response is modelled as the
  `response.data` list of embedding vectors (a `List (List ℚ)` value).
* `os.getenv` reads are passed in as `Option String` parameters, and CPython's
  `float` parser is a `String → Except PyErr ℚ` parameter (its only failure
  mode on strings is `ValueError`).
* Python exceptions are modelled with `Except PyErr`.
-/

/-- A Python exception value (only `ValueError` is relevant to this module). -/
inductive PyErr where
  | valueError (msg : String)
  deriving DecidableEq, Repr

/-! ## Python string primitives used by the module -/

/-- Python whitespace test for `str.strip` (space, tab, newline, CR, VT, FF). -/
def isPyWs (c : Char) : Bool := c == ' ' || (9 ≤ c.toNat && c.toNat ≤ 13)

/-- Python `str.strip()`: remove leading and trailing whitespace. -/
def pyStrip (s : String) : String :=
  String.mk (((s.data.dropWhile isPyWs).reverse.dropWhile isPyWs).reverse)

/-- Python `str.lower()` (the texts involved are ASCII). -/
def pyLower (s : String) : String := String.mk (s.data.map Char.toLower)

/-- Python slicing `s[:n]` (by code points). -/
def pyTake (n : Nat) (s : String) : String := String.mk (s.data.take n)

/-- Does the needle occur as a contiguous block at the start of the haystack? -/
def strStartsWith : List Char → List Char → Bool
  | [], _ => true
  | _ :: _, [] => false
  | a :: as, b :: bs => a == b && strStartsWith as bs

/-- Does the needle occur as a contiguous block anywhere in the haystack? -/
def strHasSub (needle : List Char) : List Char → Bool
  | [] => strStartsWith needle []
  | c :: rest => strStartsWith needle (c :: rest) || strHasSub needle rest

/-- Python `needle in hay` for strings. -/
def pyContains (hay needle : String) : Bool := strHasSub needle.data hay.data

/-- Python truthiness of an optional string: `None` and `""` are falsy. -/
def pyFalsy : Option String → Bool
  | none => true
  | some s => s == ""

/-- `len` of an optional string; only ever used under a non-falsy guard,
where it agrees with Python's `len`. -/
def optLen : Option String → Nat
  | none => 0
  | some s => s.length

/-! ## Data model: the tables behind the engine -/

/-- A row of the `suppliers` table. -/
structure SupplierRow where
  supplier_id : Nat
  name : String
  deriving DecidableEq, Repr

/-- A row of the `emails` table (only the columns this module touches). -/
structure EmailRow where
  email_id : String
  supplier_id : Option Nat
  deriving DecidableEq, Repr

/-- A row of the `canonical_disputes` table. -/
structure CanonRow where
  dispute_id : Nat
  supplier_id : Nat
  dispute_summary : Option String
  deriving DecidableEq, Repr

/-- A row of the `dispute_emails` link table. -/
structure LinkRow where
  dispute_id : Nat
  email_id : String
  deriving DecidableEq, Repr

/-- A row of the `dispute_documents` table. -/
structure DocRow where
  id : Nat
  dispute_id : Nat
  supplier_id : Option Nat
  document_text : String
  deriving DecidableEq, Repr

/-- A row of the `dispute_embeddings` table (the vector is kept as the
pgvector literal string that was sent to the store). -/
structure EmbRow where
  dispute_id : Nat
  supplier_id : Option Nat
  embedding : String
  model_name : String
  deriving DecidableEq, Repr

/-- The database state.  The `next_*` counters model the `SERIAL` sequences
behind `RETURNING` clauses. -/
structure DB where
  suppliers : List SupplierRow
  emails : List EmailRow
  canonical_disputes : List CanonRow
  dispute_emails : List LinkRow
  dispute_documents : List DocRow
  dispute_embeddings : List EmbRow
  next_dispute_id : Nat
  next_doc_id : Nat
  next_supplier_id : Nat
  deriving DecidableEq, Repr

/-- The `email` dict handed to `store_dispute_document` (all of
`email_id`, `subject`, `sender`, `body`, `received_at` are required keys;
`supplier_id` may be `None`). -/
structure EmailDict where
  email_id : String
  supplier_id : Option Nat
  sender : String
  subject : String
  body : String
  received_at : String
  deriving DecidableEq, Repr

/-- One row returned by the similarity queries:
`SELECT dispute_id, 1 - (embedding <=> q) AS similarity ...`. -/
structure OracleRow where
  dispute_id : Nat
  similarity : ℚ
  deriving DecidableEq, Repr

/-! ## embedding.py -/

/-- `embed_text` from `src/app/rag/embedding.py`, given the `response.data`
list of embedding vectors returned by the provider: raises `ValueError` when
the API returns no data (or an empty first embedding), else returns the
first embedding. -/
def embed_text (data : List (List ℚ)) : Except PyErr (List ℚ) :=
  match data with
  | [] => .error (.valueError "Embedding API returned no data; cannot store vector.")
  | first :: _ =>
    if first = [] then
      .error (.valueError "Embedding API returned no data; cannot store vector.")
    else
      .ok first

/-! ## vector_store.py : literal formatting and configuration -/

/-- Round to the nearest integer, ties to even (the rounding used by C's
`printf`/Python's fixed-point formatting; on the dyadic rationals that are
actual doubles a tie at 6 decimal places cannot occur). -/
def roundHalfEven (q : ℚ) : ℤ :=
  let fl := ⌊q⌋
  if q - fl < 1/2 then fl
  else if 1/2 < q - fl then fl + 1
  else if 2 ∣ fl then fl else fl + 1

/-- The six decimal digits of `n < 1000000`, zero padded (the fractional
part of `"%.6f"`). -/
def sixDigits (n : Nat) : String :=
  String.mk [Nat.digitChar (n / 100000 % 10), Nat.digitChar (n / 10000 % 10),
    Nat.digitChar (n / 1000 % 10), Nat.digitChar (n / 100 % 10),
    Nat.digitChar (n / 10 % 10), Nat.digitChar (n % 10)]

/-- Python `f"{v:.6f}"`: sign, integer part, and exactly six decimal digits. -/
def fmt6 (q : ℚ) : String :=
  let m := (roundHalfEven (|q| * 1000000)).toNat
  (if q < 0 then "-" else "") ++ Nat.repr (m / 1000000) ++ "." ++ sixDigits (m % 1000000)

/-- `_to_pgvector_literal`: `"[" + ",".join(f"{v:.6f}" for v in vector) + "]"`. -/
def _to_pgvector_literal (vector : List ℚ) : String :=
  "[" ++ String.intercalate "," (vector.map fmt6) ++ "]"

/-- `_similarity_threshold`: parse `DISPUTE_SIMILARITY_THRESHOLD` (the
`raw` parameter is the `os.getenv` result, `pyfloat` is CPython's `float`),
falling back to `0.82` when unset, and catching `ValueError` to `0.82`. -/
def _similarity_threshold (raw : Option String) (pyfloat : String → Except PyErr ℚ) : ℚ :=
  let body : Except PyErr ℚ :=
    match raw with
    | some r => pyfloat r
    | none => .ok (82/100)
  match body with
  | .ok v => v
  | .error _ => 82/100

/-! ## vector_store.py : simple lookups -/

/-- `_document_exists`: is there a `dispute_documents` row with this
`(dispute_id, document_text)`? -/
def _document_exists (db : DB) (dispute_id : Nat) (text : String) : Bool :=
  db.dispute_documents.any (fun d => d.dispute_id == dispute_id && d.document_text == text)

/-- `_find_dispute_by_text`: first `dispute_documents` row with this
`(supplier_id, document_text)`, returning its `dispute_id`. -/
def _find_dispute_by_text (db : DB) (supplier_id : Nat) (text : String) : Option Nat :=
  (db.dispute_documents.find? (fun d =>
    d.supplier_id == some supplier_id && d.document_text == text)).map (fun d => d.dispute_id)

/-! ## ORDER BY modelling -/

/-- Insert `x` before the first element strictly greater under `lt`
(so equal keys keep their original relative order). -/
def stableInsert (lt : α → α → Bool) (x : α) : List α → List α
  | [] => [x]
  | y :: ys => if lt x y then x :: y :: ys else y :: stableInsert lt x ys

/-- Stable sort by repeated insertion; models `ORDER BY` with ties kept in
table order. -/
def stableSort (lt : α → α → Bool) (xs : List α) : List α :=
  xs.foldl (fun acc x => stableInsert lt x acc) []

/-- The two similarity queries of the module: rows of `dispute_embeddings`
for `supplier_id` (excluding dispute `excl` when given), ordered by
ascending distance `embedding <=> lit`, first `k` rows, each reported as
`(dispute_id, 1 - distance)`. -/
def nearestRows (dist : String → String → ℚ) (db : DB) (supplier_id : Nat)
    (lit : String) (k : Nat) (excl : Option Nat) : List OracleRow :=
  let cands := db.dispute_embeddings.filter (fun e =>
    e.supplier_id == some supplier_id &&
      match excl with
      | some d => e.dispute_id != d
      | none => true)
  ((stableSort (fun a b => decide (dist a.embedding lit < dist b.embedding lit)) cands).take k).map
    (fun e => { dispute_id := e.dispute_id, similarity := 1 - dist e.embedding lit })

/-! ## vector_store.py : supplier resolution and linking -/

/-- `_default_supplier_id`: the smallest `supplier_id` named
"Unknown Supplier", seeding the row if absent (the `INSERT ... RETURNING`
always returns, so the final `raise` is unreachable). -/
def _default_supplier_id (db : DB) : Nat × DB :=
  match (stableSort (fun a b => decide (a.supplier_id < b.supplier_id))
      (db.suppliers.filter (fun s => s.name == "Unknown Supplier"))).head? with
  | some row => (row.supplier_id, db)
  | none =>
    (db.next_supplier_id,
     { db with
        suppliers := db.suppliers ++ [⟨db.next_supplier_id, "Unknown Supplier"⟩],
        next_supplier_id := db.next_supplier_id + 1 })

/-- `_resolve_supplier_id`: keep a present id, else fall back to the
default supplier. -/
def _resolve_supplier_id (db : DB) (supplier_id : Option Nat) : Nat × DB :=
  match supplier_id with
  | some s => (s, db)
  | none => _default_supplier_id db

/-- `_link_email_to_dispute`: `INSERT INTO dispute_emails ... ON CONFLICT DO
NOTHING`.  Modelled from the spec: the unique constraint of `dispute_emails`
(its schema lives in `db/`, which is not part of the sources) is that each
`email_id` appears in at most one link (spec section 3). -/
def _link_email_to_dispute (db : DB) (dispute_id : Nat) (email_id : String) : DB :=
  if db.dispute_emails.any (fun l => l.email_id == email_id) then db
  else { db with dispute_emails := db.dispute_emails ++ [⟨dispute_id, email_id⟩] }

/-! ## vector_store.py : summaries and merging -/

/-- `SELECT dispute_summary FROM canonical_disputes WHERE dispute_id = %s`
followed by `row["dispute_summary"] if row else None`. -/
def summaryOf (db : DB) (dispute_id : Nat) : Option String :=
  match db.canonical_disputes.find? (fun c => c.dispute_id == dispute_id) with
  | some c => c.dispute_summary
  | none => none

/-- `UPDATE canonical_disputes SET dispute_summary = %s WHERE dispute_id = %s`. -/
def setSummary (db : DB) (dispute_id : Nat) (v : Option String) : DB :=
  { db with canonical_disputes := db.canonical_disputes.map (fun (c : CanonRow) =>
      if c.dispute_id = dispute_id then { c with dispute_summary := v } else c) }

/-- One iteration of the document loop of `_merge_duplicate_dispute`:
delete the source copy if the target already holds identical text,
otherwise re-parent it to the target. -/
def mergeDocStep (tgt : Nat) (db : DB) (doc : DocRow) : DB :=
  if _document_exists db tgt doc.document_text then
    { db with dispute_documents := db.dispute_documents.filter (fun d => d.id != doc.id) }
  else
    { db with dispute_documents := db.dispute_documents.map (fun (d : DocRow) =>
        if d.id = doc.id then { d with dispute_id := tgt } else d) }

/-- `_merge_duplicate_dispute`: move all artifacts of `src` into `tgt`,
deduping identical documents and preferring the longer summary, then delete
the `src` canonical record. -/
def _merge_duplicate_dispute (db : DB) (src tgt : Nat) : DB :=
  let target_summary := summaryOf db tgt
  let source_summary := summaryOf db src
  let db :=
    if pyFalsy target_summary ||
        (!pyFalsy source_summary && optLen target_summary < optLen source_summary) then
      setSummary db tgt source_summary
    else db
  let db := { db with dispute_emails := db.dispute_emails.map (fun (l : LinkRow) =>
      if l.dispute_id = src then { l with dispute_id := tgt } else l) }
  let source_docs := db.dispute_documents.filter (fun d => d.dispute_id == src)
  let db := source_docs.foldl (mergeDocStep tgt) db
  let db := { db with dispute_embeddings := db.dispute_embeddings.map (fun (e : EmbRow) =>
      if e.dispute_id = src then { e with dispute_id := tgt } else e) }
  { db with canonical_disputes := db.canonical_disputes.filter (fun c => c.dispute_id != src) }

/-- `_merge_similar_disputes`: fetch up to 5 nearest other disputes of the
supplier, then merge every candidate at or above the threshold into
`dispute_id` (the similarity is never SQL NULL in this model, so the
`is None` skip of the source is not represented). -/
def _merge_similar_disputes (dist : String → String → ℚ) (db : DB)
    (dispute_id supplier_id : Nat) (lit : String) (thr : ℚ) : DB :=
  let rows := nearestRows dist db supplier_id lit 5 (some dispute_id)
  rows.foldl (fun acc row =>
    if row.similarity < thr then acc
    else _merge_duplicate_dispute acc row.dispute_id dispute_id) db

/-- `_update_dispute_summary`: candidate = subject if truthy else body,
stripped and truncated to 280 characters; set it if the current summary is
falsy, else replace only if not a case-insensitive substring and at least
as long. -/
def _update_dispute_summary (db : DB) (dispute_id : Nat) (email : EmailDict) : DB :=
  let candidate := if email.subject = "" then email.body else email.subject
  let candidate := pyStrip candidate
  let candidate := pyTake 280 candidate
  if candidate = "" then db
  else
    let current := summaryOf db dispute_id
    if pyFalsy current then
      setSummary db dispute_id (some candidate)
    else
      let cur := current.getD ""
      if !pyContains (pyLower cur) (pyLower candidate) && cur.length ≤ candidate.length then
        setSummary db dispute_id (some candidate)
      else db

/-! ## vector_store.py : canonicalization and the public operation -/

/-- `_ensure_dispute`: reuse the dispute already linked to this email;
otherwise require a supplier, reuse the nearest same-supplier dispute when
its similarity reaches the threshold, else create a new canonical dispute
seeded with the subject; finally link the email. -/
def _ensure_dispute (dist : String → String → ℚ) (db : DB) (email : EmailDict)
    (lit : String) (thr : ℚ) : Except PyErr (Nat × DB) :=
  match db.dispute_emails.find? (fun l => l.email_id == email.email_id) with
  | some l => .ok (l.dispute_id, db)
  | none =>
    match email.supplier_id with
    | none => .error (.valueError "Email missing supplier_id; required for dispute canonicalization.")
    | some supplier_id =>
      let created : Nat × DB :=
        (db.next_dispute_id,
         { db with
            canonical_disputes :=
              db.canonical_disputes ++ [⟨db.next_dispute_id, supplier_id, some email.subject⟩],
            next_dispute_id := db.next_dispute_id + 1 })
      let chosen : Nat × DB :=
        match (nearestRows dist db supplier_id lit 1 none).head? with
        | some m => if thr ≤ m.similarity then (m.dispute_id, db) else created
        | none => created
      .ok (chosen.1, _link_email_to_dispute chosen.2 chosen.1 email.email_id)

/-- The rendered document text of `store_dispute_document` (the f-string,
then `.strip()`). -/
def renderText (email : EmailDict) : String :=
  pyStrip ("\nSubject: " ++ email.subject ++ "\nSender: " ++ email.sender ++
    "\nDate: " ++ email.received_at ++ "\n\nEmail Content:\n" ++ email.body ++ "\n")

/-- `store_dispute_document`, the public operation.  `modelEnv` and `thrEnv`
are the two `os.getenv` reads, `pyfloat` is CPython's `float`, `resp` maps a
text to the provider's `response.data`, `dist` is pgvector `<=>`.  A `.ok`
result is the committed state; an exception propagates before `conn.commit()`
is reached. -/
def store_dispute_document (dist : String → String → ℚ) (resp : String → List (List ℚ))
    (modelEnv thrEnv : Option String) (pyfloat : String → Except PyErr ℚ)
    (email : EmailDict) (db : DB) : Except PyErr DB :=
  let text := renderText email
  let model_name := modelEnv.getD "text-embedding-3-small"
  let thr := _similarity_threshold thrEnv pyfloat
  let res := _resolve_supplier_id db email.supplier_id
  let supplier_id := res.1
  let db := res.2
  let email2 :=
    if email.supplier_id = none then { email with supplier_id := some supplier_id } else email
  let db :=
    if email.supplier_id = none then
      { db with emails := db.emails.map (fun (r : EmailRow) =>
          if r.email_id = email.email_id then { r with supplier_id := some supplier_id } else r) }
    else db
  match _find_dispute_by_text db supplier_id text with
  | some dispute_id =>
    let db := _link_email_to_dispute db dispute_id email.email_id
    let db := _update_dispute_summary db dispute_id email2
    .ok db
  | none =>
    match embed_text (resp text) with
    | .error e => .error e
    | .ok embedding =>
      let lit := _to_pgvector_literal embedding
      match _ensure_dispute dist db email2 lit thr with
      | .error e => .error e
      | .ok p =>
        let dispute_id := p.1
        let db := p.2
        let db := _merge_similar_disputes dist db dispute_id supplier_id lit thr
        let db :=
          if _document_exists db dispute_id text then db
          else
            { db with
              dispute_documents :=
                db.dispute_documents ++ [⟨db.next_doc_id, dispute_id, email2.supplier_id, text⟩],
              dispute_embeddings :=
                db.dispute_embeddings ++ [⟨dispute_id, email2.supplier_id, lit, model_name⟩],
              next_doc_id := db.next_doc_id + 1 }
        let db := _update_dispute_summary db dispute_id email2
        .ok db

/-- Modelled from the spec: the transaction scope of `get_db_connection`
(module `db/db.py`, which is not among the sources).  Per spec sections 5
and 7, an error aborts the email's transaction with no partial writes, so
the observable state after a failed call is the original state. -/
def store_dispute_document_run (dist : String → String → ℚ) (resp : String → List (List ℚ))
    (modelEnv thrEnv : Option String) (pyfloat : String → Except PyErr ℚ)
    (email : EmailDict) (db : DB) : DB :=
  match store_dispute_document dist resp modelEnv thrEnv pyfloat email db with
  | .ok db2 => db2
  | .error _ => db

/-! ## Well-formedness of database states -/

/-- Documents and embeddings of one dispute agree on the supplier column
(true of every state the engine itself produces: both are inserted with the
email's supplier and merges move them together). -/
def SameSupplierCoherent (db : DB) : Prop :=
  ∀ doc ∈ db.dispute_documents, ∀ emb ∈ db.dispute_embeddings,
    doc.dispute_id = emb.dispute_id → doc.supplier_id = emb.supplier_id

/-- No stored document references the dispute id the sequence will hand out
next (`SERIAL` freshness). -/
def FreshDocDisputes (db : DB) : Prop :=
  ∀ doc ∈ db.dispute_documents, doc.dispute_id ≠ db.next_dispute_id

/-- Document primary keys are distinct. -/
def DocIdsNodup (db : DB) : Prop :=
  (db.dispute_documents.map (fun d => d.id)).Nodup

/-- No two documents share the same `(dispute_id, document_text)` pair. -/
def DocPairsDistinct (db : DB) : Prop :=
  db.dispute_documents.Pairwise (fun a b =>
    a.dispute_id = b.dispute_id → a.document_text ≠ b.document_text)

instance (db : DB) : Decidable (SameSupplierCoherent db) := by
  unfold SameSupplierCoherent; infer_instance

instance (db : DB) : Decidable (FreshDocDisputes db) := by
  unfold FreshDocDisputes; infer_instance

instance (db : DB) : Decidable (DocIdsNodup db) := by
  unfold DocIdsNodup; infer_instance

instance (db : DB) : Decidable (DocPairsDistinct db) := by
  unfold DocPairsDistinct; infer_instance

instance {ε α : Type _} [DecidableEq ε] [DecidableEq α] : DecidableEq (Except ε α) := fun x y =>
  match x, y with
  | .ok a, .ok b =>
    if h : a = b then .isTrue (h ▸ rfl) else .isFalse (fun he => h (Except.ok.inj he))
  | .error a, .error b =>
    if h : a = b then .isTrue (h ▸ rfl) else .isFalse (fun he => h (Except.error.inj he))
  | .ok _, .error _ => .isFalse (fun he => Except.noConfusion he)
  | .error _, .ok _ => .isFalse (fun he => Except.noConfusion he)

/-! ## Basic lemmas about the string primitives -/

theorem strStartsWith_self : ∀ l : List Char, strStartsWith l l = true := by
  intro l
  induction l with
  | nil => rfl
  | cons a as ih => simp [strStartsWith, ih]

theorem strHasSub_self (l : List Char) : strHasSub l l = true := by
  cases l with
  | nil => rfl
  | cons a as => simp [strHasSub, strStartsWith_self]

theorem pyContains_self (s : String) : pyContains s s = true :=
  strHasSub_self s.data

/-! ## Lemmas about summaries -/

theorem find?_update_canon (cs : List CanonRow) (d : Nat) (v : Option String) :
    (cs.map (fun (c : CanonRow) =>
        if c.dispute_id = d then { c with dispute_summary := v } else c)).find?
        (fun c => c.dispute_id == d) =
      (cs.find? (fun c => c.dispute_id == d)).map
        (fun (c : CanonRow) => { c with dispute_summary := v }) := by
  induction cs with
  | nil => rfl
  | cons c cs ih =>
    by_cases h : c.dispute_id = d
    · simp [List.find?, h]
    · have hb : (c.dispute_id == d) = false := by simp [h]
      simp [List.find?, h, hb, ih]

theorem summaryOf_setSummary (db : DB) (d : Nat) (v : Option String) :
    summaryOf (setSummary db d v) d =
      if (db.canonical_disputes.find? (fun c => c.dispute_id == d)).isSome then v
      else none := by
  unfold summaryOf setSummary
  rw [show (fun (c : CanonRow) => c.dispute_id == d) = fun c => c.dispute_id == d from rfl]
  rw [find?_update_canon]
  cases db.canonical_disputes.find? (fun c => c.dispute_id == d) <;> rfl

/-- A `find?` is unaffected by filtering with a predicate implied by the
search predicate. -/
theorem find?_filter_of_imp (l : List α) (p q : α → Bool)
    (h : ∀ a, p a = true → q a = true) :
    List.find? p (l.filter q) = List.find? p l := by
  induction l with
  | nil => rfl
  | cons a as ih =>
    by_cases hp : p a = true
    · have hq := h a hp
      simp [List.find?, hq, hp, List.filter_cons]
    · by_cases hq : q a = true
      · simp [List.find?, hq, hp, List.filter_cons, ih]
      · simp [List.filter_cons, hq, List.find?, hp, ih]

/-! ## Claim C9 -/

/-- **C9**: the `similarity_threshold` configuration read is total and
silent: it returns the parsed float when `DISPUTE_SIMILARITY_THRESHOLD`
parses, and the default `0.82` both when the variable is unset and when
parsing raises `ValueError`; it never raises (it is a total function into
`ℚ`). -/
theorem C9_similarity_threshold_total (raw : Option String)
    (pyfloat : String → Except PyErr ℚ) :
    (raw = none → _similarity_threshold raw pyfloat = 82/100) ∧
    (∀ r v, raw = some r → pyfloat r = .ok v → _similarity_threshold raw pyfloat = v) ∧
    (∀ r e, raw = some r → pyfloat r = .error e → _similarity_threshold raw pyfloat = 82/100) := by
  refine ⟨?_, ?_, ?_⟩
  · intro h; subst h; rfl
  · intro r v h hv; subst h; simp [_similarity_threshold, hv]
  · intro r e h he; subst h; simp [_similarity_threshold, he]

theorem C9_similarity_threshold_total_witness :
    _similarity_threshold none (fun _ => .error (.valueError "boom")) = 82/100 ∧
    _similarity_threshold (some "0.5")
      (fun s => if s = "0.5" then .ok (mkRat 1 2) else .error (.valueError "x")) = mkRat 1 2 ∧
    _similarity_threshold (some "not a float")
      (fun _ => .error (.valueError "could not convert string to float")) = 82/100 := by
  refine ⟨?_, ?_, ?_⟩
  · exact (C9_similarity_threshold_total none _).1 rfl
  · exact (C9_similarity_threshold_total (some "0.5") _).2.1 "0.5" (mkRat 1 2) rfl (by simp)
  · exact (C9_similarity_threshold_total (some "not a float") _).2.2 "not a float"
      (PyErr.valueError "could not convert string to float") rfl rfl

/-! ## Claim C10 -/

/-- **C10 (amended)**: `_to_pgvector_literal` formats every component with
exactly 6 decimal places, and the embedding stored and used for every
similarity query is determined by the rounded literal alone: two provider
vectors whose components are equal after rounding to 6 decimal places (not
merely agreeing in their first six decimal digits) produce identical
literals and make `store_dispute_document` behave identically. -/
theorem C10_rounded_literal :
    (∀ q : ℚ, ∃ fracPart : String, fracPart.length = 6 ∧
      fmt6 q = (if q < 0 then "-" else "") ++
        Nat.repr ((roundHalfEven (|q| * 1000000)).toNat / 1000000) ++ "." ++ fracPart) ∧
    (∀ v w : List ℚ, v.map fmt6 = w.map fmt6 →
      _to_pgvector_literal v = _to_pgvector_literal w) ∧
    (∀ dist modelEnv thrEnv pyfloat email db (v w : List ℚ), v.map fmt6 = w.map fmt6 →
      store_dispute_document dist (fun _ => [v]) modelEnv thrEnv pyfloat email db =
        store_dispute_document dist (fun _ => [w]) modelEnv thrEnv pyfloat email db) := by
  refine ⟨?_, ?_, ?_⟩
  · intro q
    exact ⟨sixDigits ((roundHalfEven (|q| * 1000000)).toNat % 1000000), rfl, rfl⟩
  · intro v w h
    unfold _to_pgvector_literal
    rw [h]
  · intro dist mE tE pf email db v w h
    cases v with
    | nil =>
      have hw : w = [] := by simpa using h.symm
      subst hw; rfl
    | cons a v2 =>
      cases w with
      | nil => simp at h
      | cons b w2 =>
        have hlit : _to_pgvector_literal (a :: v2) = _to_pgvector_literal (b :: w2) := by
          unfold _to_pgvector_literal; rw [h]
        have he1 : embed_text [a :: v2] = .ok (a :: v2) := by simp [embed_text]
        have he2 : embed_text [b :: w2] = .ok (b :: w2) := by simp [embed_text]
        unfold store_dispute_document
        simp only [he1, he2, hlit]

/-- **C10 (counterexample to the claim as stated)**: the vectors
`[0.1234561]` and `[0.1234569]` agree in sign, integer part and their first
six decimal digits (they differ only beyond the 6th decimal place), yet
their stored pgvector literals differ, because `%.6f` rounds (to
`0.123456` and `0.123457` respectively) rather than truncating. -/
theorem C10_counterexample :
    (0:ℚ) ≤ 1234561/10000000 ∧ (0:ℚ) ≤ 1234569/10000000 ∧
    (1234561/10000000 : ℚ) ≠ 1234569/10000000 ∧
    ⌊(1234561/10000000 : ℚ) * 1000000⌋ = ⌊(1234569/10000000 : ℚ) * 1000000⌋ ∧
    _to_pgvector_literal [1234561/10000000] = "[0.123456]" ∧
    _to_pgvector_literal [1234569/10000000] = "[0.123457]" := by
  decide!

theorem C10_rounded_literal_witness :
    List.map fmt6 [(1:ℚ)/3] = List.map fmt6 [333333/1000000 + 1/10000000] ∧
    _to_pgvector_literal [(1:ℚ)/3] = _to_pgvector_literal [333333/1000000 + 1/10000000] := by
  have h : List.map fmt6 [(1:ℚ)/3] = List.map fmt6 [333333/1000000 + 1/10000000] := by
    decide!
  exact ⟨h, C10_rounded_literal.2.1 _ _ h⟩

/-! ## Projection lemmas: which tables each operation leaves untouched -/

theorem link_email_tables (db : DB) (d : Nat) (e : String) :
    (_link_email_to_dispute db d e).suppliers = db.suppliers ∧
    (_link_email_to_dispute db d e).emails = db.emails ∧
    (_link_email_to_dispute db d e).canonical_disputes = db.canonical_disputes ∧
    (_link_email_to_dispute db d e).dispute_documents = db.dispute_documents ∧
    (_link_email_to_dispute db d e).dispute_embeddings = db.dispute_embeddings ∧
    (_link_email_to_dispute db d e).next_dispute_id = db.next_dispute_id ∧
    (_link_email_to_dispute db d e).next_doc_id = db.next_doc_id ∧
    (_link_email_to_dispute db d e).next_supplier_id = db.next_supplier_id := by
  unfold _link_email_to_dispute
  split <;> exact ⟨rfl, rfl, rfl, rfl, rfl, rfl, rfl, rfl⟩

/-- `_update_dispute_summary` either leaves the state alone or sets the
summary of the addressed dispute. -/
theorem update_summary_eq_or_set (db : DB) (d : Nat) (email : EmailDict) :
    _update_dispute_summary db d email = db ∨
    ∃ v, _update_dispute_summary db d email = setSummary db d (some v) := by
  unfold _update_dispute_summary
  dsimp only
  generalize pyTake 280 (pyStrip (if email.subject = "" then email.body else email.subject)) = cand
  split
  · exact .inl rfl
  · split
    · exact .inr ⟨_, rfl⟩
    · split
      · exact .inr ⟨_, rfl⟩
      · exact .inl rfl

theorem update_summary_tables (db : DB) (d : Nat) (email : EmailDict) :
    (_update_dispute_summary db d email).suppliers = db.suppliers ∧
    (_update_dispute_summary db d email).emails = db.emails ∧
    (_update_dispute_summary db d email).dispute_emails = db.dispute_emails ∧
    (_update_dispute_summary db d email).dispute_documents = db.dispute_documents ∧
    (_update_dispute_summary db d email).dispute_embeddings = db.dispute_embeddings ∧
    (_update_dispute_summary db d email).next_dispute_id = db.next_dispute_id ∧
    (_update_dispute_summary db d email).next_doc_id = db.next_doc_id ∧
    (_update_dispute_summary db d email).next_supplier_id = db.next_supplier_id := by
  rcases update_summary_eq_or_set db d email with h | ⟨v, h⟩ <;> rw [h] <;>
    exact ⟨rfl, rfl, rfl, rfl, rfl, rfl, rfl, rfl⟩

theorem foldl_mergeDocStep_suppliers (tgt : Nat) (l : List DocRow) :
    ∀ db : DB, (l.foldl (mergeDocStep tgt) db).suppliers = db.suppliers := by
  induction l with
  | nil => intro db; rfl
  | cons x xs ih =>
    intro db
    rw [List.foldl_cons, ih]
    unfold mergeDocStep; split <;> rfl

theorem foldl_mergeDocStep_emails (tgt : Nat) (l : List DocRow) :
    ∀ db : DB, (l.foldl (mergeDocStep tgt) db).emails = db.emails := by
  induction l with
  | nil => intro db; rfl
  | cons x xs ih =>
    intro db
    rw [List.foldl_cons, ih]
    unfold mergeDocStep; split <;> rfl

theorem foldl_mergeDocStep_canonical (tgt : Nat) (l : List DocRow) :
    ∀ db : DB, (l.foldl (mergeDocStep tgt) db).canonical_disputes = db.canonical_disputes := by
  induction l with
  | nil => intro db; rfl
  | cons x xs ih =>
    intro db
    rw [List.foldl_cons, ih]
    unfold mergeDocStep; split <;> rfl

theorem foldl_mergeDocStep_links (tgt : Nat) (l : List DocRow) :
    ∀ db : DB, (l.foldl (mergeDocStep tgt) db).dispute_emails = db.dispute_emails := by
  induction l with
  | nil => intro db; rfl
  | cons x xs ih =>
    intro db
    rw [List.foldl_cons, ih]
    unfold mergeDocStep; split <;> rfl

theorem foldl_mergeDocStep_embs (tgt : Nat) (l : List DocRow) :
    ∀ db : DB, (l.foldl (mergeDocStep tgt) db).dispute_embeddings = db.dispute_embeddings := by
  induction l with
  | nil => intro db; rfl
  | cons x xs ih =>
    intro db
    rw [List.foldl_cons, ih]
    unfold mergeDocStep; split <;> rfl

theorem foldl_mergeDocStep_next_dispute (tgt : Nat) (l : List DocRow) :
    ∀ db : DB, (l.foldl (mergeDocStep tgt) db).next_dispute_id = db.next_dispute_id := by
  induction l with
  | nil => intro db; rfl
  | cons x xs ih =>
    intro db
    rw [List.foldl_cons, ih]
    unfold mergeDocStep; split <;> rfl

/-! ## Characterization of `_merge_duplicate_dispute` per table -/

/-- The summary-reconciliation condition of `_merge_duplicate_dispute`. -/
def mergeSummaryCond (db : DB) (src tgt : Nat) : Bool :=
  pyFalsy (summaryOf db tgt) ||
    (!pyFalsy (summaryOf db src) && optLen (summaryOf db tgt) < optLen (summaryOf db src))

theorem merge_suppliers (db : DB) (src tgt : Nat) :
    (_merge_duplicate_dispute db src tgt).suppliers = db.suppliers := by
  unfold _merge_duplicate_dispute
  dsimp only
  rw [foldl_mergeDocStep_suppliers]
  split <;> rfl

theorem merge_emails (db : DB) (src tgt : Nat) :
    (_merge_duplicate_dispute db src tgt).emails = db.emails := by
  unfold _merge_duplicate_dispute
  dsimp only
  rw [foldl_mergeDocStep_emails]
  split <;> rfl

theorem merge_next_dispute (db : DB) (src tgt : Nat) :
    (_merge_duplicate_dispute db src tgt).next_dispute_id = db.next_dispute_id := by
  unfold _merge_duplicate_dispute
  dsimp only
  rw [foldl_mergeDocStep_next_dispute]
  split <;> rfl

theorem merge_links (db : DB) (src tgt : Nat) :
    (_merge_duplicate_dispute db src tgt).dispute_emails =
      db.dispute_emails.map (fun (l : LinkRow) =>
        if l.dispute_id = src then { l with dispute_id := tgt } else l) := by
  unfold _merge_duplicate_dispute
  dsimp only
  rw [foldl_mergeDocStep_links]
  split <;> rfl

theorem merge_embs (db : DB) (src tgt : Nat) :
    (_merge_duplicate_dispute db src tgt).dispute_embeddings =
      db.dispute_embeddings.map (fun (e : EmbRow) =>
        if e.dispute_id = src then { e with dispute_id := tgt } else e) := by
  unfold _merge_duplicate_dispute
  dsimp only
  rw [foldl_mergeDocStep_embs]
  split <;> rfl

theorem merge_canonical (db : DB) (src tgt : Nat) :
    (_merge_duplicate_dispute db src tgt).canonical_disputes =
      ((if mergeSummaryCond db src tgt then setSummary db tgt (summaryOf db src)
        else db).canonical_disputes).filter (fun c => c.dispute_id != src) := by
  unfold _merge_duplicate_dispute mergeSummaryCond
  dsimp only
  rw [foldl_mergeDocStep_canonical]

/-! ## Claim C6 -/

/-- **C6 (amended)**: the candidate text is the subject when non-empty,
otherwise the body, in either case stripped of surrounding whitespace and
truncated to its first 280 characters.  If the candidate is then empty,
nothing changes.  If the dispute's current summary is null or empty the
candidate is set; otherwise the summary is replaced by the candidate iff
the candidate is not a case-insensitive substring of the current summary
and its length is at least the current summary's length.  Only the
`canonical_disputes` table is touched. -/
theorem C6_summary_update_policy (db : DB) (d : Nat) (email : EmailDict) (c0 : CanonRow)
    (h : db.canonical_disputes.find? (fun c => c.dispute_id == d) = some c0) :
    (summaryOf (_update_dispute_summary db d email) d =
      (if pyTake 280 (pyStrip (if email.subject = "" then email.body else email.subject)) = "" then
        c0.dispute_summary
       else if pyFalsy c0.dispute_summary then
        some (pyTake 280 (pyStrip (if email.subject = "" then email.body else email.subject)))
       else if !pyContains (pyLower (c0.dispute_summary.getD ""))
              (pyLower (pyTake 280 (pyStrip (if email.subject = "" then email.body else email.subject)))) &&
            (c0.dispute_summary.getD "").length ≤
              (pyTake 280 (pyStrip (if email.subject = "" then email.body else email.subject))).length then
        some (pyTake 280 (pyStrip (if email.subject = "" then email.body else email.subject)))
       else c0.dispute_summary)) ∧
    (_update_dispute_summary db d email).dispute_documents = db.dispute_documents ∧
    (_update_dispute_summary db d email).dispute_embeddings = db.dispute_embeddings ∧
    (_update_dispute_summary db d email).dispute_emails = db.dispute_emails := by
  have hsum : summaryOf db d = c0.dispute_summary := by unfold summaryOf; rw [h]
  have hIsSome : (db.canonical_disputes.find? (fun c => c.dispute_id == d)).isSome = true := by
    rw [h]; rfl
  refine ⟨?_, (update_summary_tables db d email).2.2.2.1,
    (update_summary_tables db d email).2.2.2.2.1, (update_summary_tables db d email).2.2.1⟩
  unfold _update_dispute_summary
  dsimp only
  generalize pyTake 280 (pyStrip (if email.subject = "" then email.body else email.subject)) = cand
  rw [hsum]
  split
  · exact hsum
  · split
    · rw [summaryOf_setSummary]
      simp [hIsSome]
    · split
      · rw [summaryOf_setSummary]
        simp [hIsSome]
      · exact hsum

/-- **C6 (counterexample to the claim as stated)**: a 281-character subject
is truncated to 280 characters before becoming the summary, so the
candidate is not "the email's subject" even though the subject is
non-empty. -/
theorem C6_counterexample :
    (⟨"e", some 1, "x", String.mk (List.replicate 281 'a'), "b", "d"⟩ : EmailDict).subject ≠ "" ∧
    summaryOf (_update_dispute_summary ⟨[], [], [⟨1, 1, none⟩], [], [], [], 2, 1, 2⟩ 1
        ⟨"e", some 1, "x", String.mk (List.replicate 281 'a'), "b", "d"⟩) 1 =
      some (String.mk (List.replicate 280 'a')) ∧
    summaryOf (_update_dispute_summary ⟨[], [], [⟨1, 1, none⟩], [], [], [], 2, 1, 2⟩ 1
        ⟨"e", some 1, "x", String.mk (List.replicate 281 'a'), "b", "d"⟩) 1 ≠
      some (String.mk (List.replicate 281 'a')) := by
  decide!

theorem C6_summary_update_policy_witness :
    summaryOf (_update_dispute_summary ⟨[], [], [⟨1, 1, some "Hello"⟩], [], [], [], 2, 1, 2⟩ 1
        ⟨"e", some 1, "x", "Hello there", "b", "d"⟩) 1 = some "Hello there" := by
  have h := (C6_summary_update_policy ⟨[], [], [⟨1, 1, some "Hello"⟩], [], [], [], 2, 1, 2⟩ 1
    ⟨"e", some 1, "x", "Hello there", "b", "d"⟩ ⟨1, 1, some "Hello"⟩ (by decide)).1
  rw [h]
  decide

/-! ## Claim C7 -/

/-- **C7 (amended)**: after `merge(source, target)` the target's summary is
the source's summary exactly when the target's summary is null-or-empty, or
the source's is non-(null-or-empty) and strictly longer; otherwise the
target's summary is kept.  (Python truthiness makes the empty string behave
like null here, and a null target summary with null source stays null.) -/
theorem C7_merge_summary_reconciliation (db : DB) (src tgt : Nat) (hne : src ≠ tgt)
    (h : (db.canonical_disputes.find? (fun c => c.dispute_id == tgt)).isSome = true) :
    summaryOf (_merge_duplicate_dispute db src tgt) tgt =
      (if mergeSummaryCond db src tgt then summaryOf db src else summaryOf db tgt) ∧
    mergeSummaryCond db src tgt =
      (pyFalsy (summaryOf db tgt) ||
        (!pyFalsy (summaryOf db src) &&
          optLen (summaryOf db tgt) < optLen (summaryOf db src))) := by
  refine ⟨?_, rfl⟩
  have hstep : summaryOf (_merge_duplicate_dispute db src tgt) tgt =
      summaryOf (if mergeSummaryCond db src tgt then setSummary db tgt (summaryOf db src)
        else db) tgt := by
    have himp : ∀ a : CanonRow, ((fun c => c.dispute_id == tgt) a) = true →
        ((fun c => c.dispute_id != src) a) = true := by
      intro a ha
      have h2 : a.dispute_id = tgt := by simpa using ha
      show (a.dispute_id != src) = true
      rw [h2, bne_iff_ne]
      exact fun e => hne e.symm
    unfold summaryOf
    rw [merge_canonical]
    rw [find?_filter_of_imp _ _ _ himp]
    rfl
  rw [hstep]
  by_cases hc : mergeSummaryCond db src tgt = true
  · simp only [hc, if_true]
    rw [summaryOf_setSummary]
    simp [h]
  · simp only [Bool.not_eq_true] at hc
    simp [hc]

/-- **C7 (counterexample to the claim as stated)**: a non-null (empty
string) target summary is overwritten by a null source summary, because the
code tests Python truthiness, not null-ness: the merged target ends with a
null summary although one of the two summaries was non-null. -/
theorem C7_counterexample :
    summaryOf (⟨[], [], [⟨1, 1, some ""⟩, ⟨2, 1, none⟩], [], [], [], 3, 1, 1⟩ : DB) 1 = some "" ∧
    summaryOf (⟨[], [], [⟨1, 1, some ""⟩, ⟨2, 1, none⟩], [], [], [], 3, 1, 1⟩ : DB) 2 = none ∧
    summaryOf (_merge_duplicate_dispute
      (⟨[], [], [⟨1, 1, some ""⟩, ⟨2, 1, none⟩], [], [], [], 3, 1, 1⟩ : DB) 2 1) 1 = none := by
  decide

theorem C7_merge_summary_reconciliation_witness :
    summaryOf (_merge_duplicate_dispute
      (⟨[], [], [⟨1, 1, some "short"⟩, ⟨2, 1, some "a longer summary"⟩], [], [], [], 3, 1, 1⟩ : DB)
      2 1) 1 = some "a longer summary" := by
  have h := (C7_merge_summary_reconciliation
    (⟨[], [], [⟨1, 1, some "short"⟩, ⟨2, 1, some "a longer summary"⟩], [], [], [], 3, 1, 1⟩ : DB)
    2 1 (by decide) (by decide)).1
  rw [h]
  decide

/-! ## Claim C3 -/

/-- **C3**: in canonicalization of a not-yet-linked email with a resolved
supplier, a nearest same-supplier embedding whose similarity is exactly the
threshold causes the existing dispute to be reused (inclusive ≥, no new
canonical row); similarity strictly below the threshold, or no candidate at
all, creates a new `CanonicalDispute` (with the next dispute id, seeded
with the email's subject) instead. -/
theorem C3_threshold_boundary (dist : String → String → ℚ) (db : DB) (email : EmailDict)
    (lit : String) (thr : ℚ) (s : Nat)
    (hunlinked : db.dispute_emails.find? (fun l => l.email_id == email.email_id) = none)
    (hsup : email.supplier_id = some s) :
    (∀ m, (nearestRows dist db s lit 1 none).head? = some m → m.similarity = thr →
      _ensure_dispute dist db email lit thr =
        .ok (m.dispute_id, _link_email_to_dispute db m.dispute_id email.email_id)) ∧
    (∀ m, (nearestRows dist db s lit 1 none).head? = some m → m.similarity < thr →
      _ensure_dispute dist db email lit thr =
        .ok (db.next_dispute_id,
          _link_email_to_dispute
            { db with
              canonical_disputes :=
                db.canonical_disputes ++ [⟨db.next_dispute_id, s, some email.subject⟩],
              next_dispute_id := db.next_dispute_id + 1 }
            db.next_dispute_id email.email_id)) ∧
    ((nearestRows dist db s lit 1 none).head? = none →
      _ensure_dispute dist db email lit thr =
        .ok (db.next_dispute_id,
          _link_email_to_dispute
            { db with
              canonical_disputes :=
                db.canonical_disputes ++ [⟨db.next_dispute_id, s, some email.subject⟩],
              next_dispute_id := db.next_dispute_id + 1 }
            db.next_dispute_id email.email_id)) := by
  refine ⟨?_, ?_, ?_⟩
  · intro m hm hsim
    unfold _ensure_dispute
    rw [hunlinked, hsup]
    dsimp only
    rw [hm]
    dsimp only
    rw [if_pos (le_of_eq hsim.symm)]
  · intro m hm hsim
    unfold _ensure_dispute
    rw [hunlinked, hsup]
    dsimp only
    rw [hm]
    dsimp only
    rw [if_neg (not_le.mpr hsim)]
  · intro hm
    unfold _ensure_dispute
    rw [hunlinked, hsup]
    dsimp only
    rw [hm]

theorem C3_threshold_boundary_witness :
    _ensure_dispute (fun _ _ => mkRat 9 50)
      (⟨[], [], [⟨7, 1, none⟩], [], [], [⟨7, some 1, "E", "m"⟩], 8, 1, 1⟩ : DB)
      ⟨"e1", some 1, "snd", "subj", "body", "date"⟩ "[q]" (mkRat 41 50) =
      .ok (7, _link_email_to_dispute
        (⟨[], [], [⟨7, 1, none⟩], [], [], [⟨7, some 1, "E", "m"⟩], 8, 1, 1⟩ : DB) 7 "e1") ∧
    _ensure_dispute (fun _ _ => mkRat 9 50 + mkRat 1 1000000)
      (⟨[], [], [⟨7, 1, none⟩], [], [], [⟨7, some 1, "E", "m"⟩], 8, 1, 1⟩ : DB)
      ⟨"e1", some 1, "snd", "subj", "body", "date"⟩ "[q]" (mkRat 41 50) =
      .ok (8, _link_email_to_dispute
        (⟨[], [], [⟨7, 1, none⟩, ⟨8, 1, some "subj"⟩], [], [], [⟨7, some 1, "E", "m"⟩], 9, 1, 1⟩ : DB)
        8 "e1") := by
  constructor
  · exact (C3_threshold_boundary (fun _ _ => mkRat 9 50)
      (⟨[], [], [⟨7, 1, none⟩], [], [], [⟨7, some 1, "E", "m"⟩], 8, 1, 1⟩ : DB)
      ⟨"e1", some 1, "snd", "subj", "body", "date"⟩ "[q]" (mkRat 41 50) 1
      (by decide!) rfl).1 ⟨7, 1 - mkRat 9 50⟩ (by decide!) (by decide!)
  · exact (C3_threshold_boundary (fun _ _ => mkRat 9 50 + mkRat 1 1000000)
      (⟨[], [], [⟨7, 1, none⟩], [], [], [⟨7, some 1, "E", "m"⟩], 8, 1, 1⟩ : DB)
      ⟨"e1", some 1, "snd", "subj", "body", "date"⟩ "[q]" (mkRat 41 50) 1
      (by decide!) rfl).2.1 ⟨7, 1 - (mkRat 9 50 + mkRat 1 1000000)⟩ (by decide!) (by decide!)

/-! ## Claim C2 -/

/-- Folding with a skip guard equals folding over the filtered list. -/
theorem foldl_if_skip_eq_filter {α σ : Type _} (p : α → Prop) [DecidablePred p] (f : σ → α → σ) :
    ∀ (l : List α) (s : σ),
      l.foldl (fun acc x => if p x then f acc x else acc) s =
        (l.filter (fun x => decide (p x))).foldl f s := by
  intro l
  induction l with
  | nil => intro s; rfl
  | cons x xs ih =>
    intro s
    rw [List.foldl_cons, List.filter_cons]
    by_cases hp : p x
    · simp only [hp, if_true, decide_eq_true hp, List.foldl_cons]
      exact ih (f s x)
    · simp only [hp, if_false, decide_eq_false hp, Bool.false_eq_true]
      exact ih s

/-- **C2 (amended)**: the merge sweep queries up to 5 nearest other
disputes of the same supplier and folds a merge (candidate as source, `D`
as target) over exactly the candidates whose similarity is at least
`similarity_threshold`; if every returned candidate is below the threshold
the sweep changes nothing.  (Contrary to the claim as stated, inside
`store_dispute_document` the sweep runs after canonicalization but before
the new document/embedding are persisted — see the counterexample.) -/
theorem C2_merge_sweep (dist : String → String → ℚ) (db : DB)
    (dispute_id supplier_id : Nat) (lit : String) (thr : ℚ) :
    _merge_similar_disputes dist db dispute_id supplier_id lit thr =
      ((nearestRows dist db supplier_id lit 5 (some dispute_id)).filter
        (fun r => thr ≤ r.similarity)).foldl
        (fun acc r => _merge_duplicate_dispute acc r.dispute_id dispute_id) db ∧
    ((∀ r ∈ nearestRows dist db supplier_id lit 5 (some dispute_id), r.similarity < thr) →
      _merge_similar_disputes dist db dispute_id supplier_id lit thr = db) := by
  have hfun : (fun (acc : DB) (row : OracleRow) =>
        if row.similarity < thr then acc
        else _merge_duplicate_dispute acc row.dispute_id dispute_id) =
      (fun (acc : DB) (row : OracleRow) =>
        if thr ≤ row.similarity then _merge_duplicate_dispute acc row.dispute_id dispute_id
        else acc) := by
    funext acc row
    by_cases h : row.similarity < thr
    · rw [if_pos h, if_neg (not_le.mpr h)]
    · rw [if_neg h, if_pos (not_lt.mp h)]
  have hmain : _merge_similar_disputes dist db dispute_id supplier_id lit thr =
      ((nearestRows dist db supplier_id lit 5 (some dispute_id)).filter
        (fun r => thr ≤ r.similarity)).foldl
        (fun acc r => _merge_duplicate_dispute acc r.dispute_id dispute_id) db := by
    unfold _merge_similar_disputes
    dsimp only
    rw [hfun, foldl_if_skip_eq_filter (fun r : OracleRow => thr ≤ r.similarity)]
  refine ⟨hmain, ?_⟩
  intro hall
  rw [hmain]
  have hnil : (nearestRows dist db supplier_id lit 5 (some dispute_id)).filter
      (fun r => thr ≤ r.similarity) = [] := by
    rw [List.filter_eq_nil_iff]
    intro r hr
    simpa using not_le.mpr (hall r hr)
  rw [hnil]
  rfl

/-- **C2 (counterexample to the claim as stated)**: a run of
`store_dispute_document` in which the sweep merges a candidate (dispute 7
disappears from `canonical_disputes`) although the new embedding is never
persisted at all: the merge moved an identically-texted document under the
target before the persist-if-absent check, so the embedding insert was
skipped, yet the merge did happen.  Had the sweep only been invoked after
the new embedding was persisted, the final state would contain an embedding
row with the new literal `"[1.000000]"`; it contains none (and no
operation ever deletes an embedding row). -/
theorem C2_counterexample :
    store_dispute_document
        (fun a _ => if a = "E9" then 0 else if a = "E7" then mkRat 1 10 else 1)
        (fun _ => [[1]]) none none (fun _ => .error (.valueError "x"))
        ⟨"e1", some 1, "x", "A", "B", "D"⟩
        ⟨[⟨1, "S"⟩], [], [⟨7, 1, none⟩, ⟨9, 1, none⟩], [],
          [⟨1, 7, some 2, "Subject: A\nSender: x\nDate: D\n\nEmail Content:\nB"⟩],
          [⟨7, some 1, "E7", "m"⟩, ⟨9, some 1, "E9", "m"⟩], 10, 2, 2⟩ =
      .ok (store_dispute_document_run
        (fun a _ => if a = "E9" then 0 else if a = "E7" then mkRat 1 10 else 1)
        (fun _ => [[1]]) none none (fun _ => .error (.valueError "x"))
        ⟨"e1", some 1, "x", "A", "B", "D"⟩
        ⟨[⟨1, "S"⟩], [], [⟨7, 1, none⟩, ⟨9, 1, none⟩], [],
          [⟨1, 7, some 2, "Subject: A\nSender: x\nDate: D\n\nEmail Content:\nB"⟩],
          [⟨7, some 1, "E7", "m"⟩, ⟨9, some 1, "E9", "m"⟩], 10, 2, 2⟩) ∧
    ((store_dispute_document_run
        (fun a _ => if a = "E9" then 0 else if a = "E7" then mkRat 1 10 else 1)
        (fun _ => [[1]]) none none (fun _ => .error (.valueError "x"))
        ⟨"e1", some 1, "x", "A", "B", "D"⟩
        ⟨[⟨1, "S"⟩], [], [⟨7, 1, none⟩, ⟨9, 1, none⟩], [],
          [⟨1, 7, some 2, "Subject: A\nSender: x\nDate: D\n\nEmail Content:\nB"⟩],
          [⟨7, some 1, "E7", "m"⟩, ⟨9, some 1, "E9", "m"⟩], 10, 2, 2⟩).canonical_disputes.all
      (fun c => c.dispute_id != 7)) = true ∧
    ((store_dispute_document_run
        (fun a _ => if a = "E9" then 0 else if a = "E7" then mkRat 1 10 else 1)
        (fun _ => [[1]]) none none (fun _ => .error (.valueError "x"))
        ⟨"e1", some 1, "x", "A", "B", "D"⟩
        ⟨[⟨1, "S"⟩], [], [⟨7, 1, none⟩, ⟨9, 1, none⟩], [],
          [⟨1, 7, some 2, "Subject: A\nSender: x\nDate: D\n\nEmail Content:\nB"⟩],
          [⟨7, some 1, "E7", "m"⟩, ⟨9, some 1, "E9", "m"⟩], 10, 2, 2⟩).dispute_embeddings.all
      (fun e => e.embedding != "[1.000000]")) = true ∧
    ((⟨[⟨1, "S"⟩], [], [⟨7, 1, none⟩, ⟨9, 1, none⟩], [],
        [⟨1, 7, some 2, "Subject: A\nSender: x\nDate: D\n\nEmail Content:\nB"⟩],
        [⟨7, some 1, "E7", "m"⟩, ⟨9, some 1, "E9", "m"⟩], 10, 2, 2⟩ :
        DB).canonical_disputes.contains ⟨7, 1, none⟩) = true ∧
    _to_pgvector_literal [1] = "[1.000000]" := by
  decide!

theorem C2_merge_sweep_witness :
    _merge_similar_disputes (fun _ _ => 0)
      (⟨[], [], [⟨5, 1, none⟩, ⟨7, 1, none⟩], [], [], [⟨7, some 1, "E7", "m"⟩], 8, 1, 1⟩ : DB)
      5 1 "[q]" (mkRat 41 50) =
      ((nearestRows (fun _ _ => 0)
        (⟨[], [], [⟨5, 1, none⟩, ⟨7, 1, none⟩], [], [], [⟨7, some 1, "E7", "m"⟩], 8, 1, 1⟩ : DB)
        1 "[q]" 5 (some 5)).filter (fun r => mkRat 41 50 ≤ r.similarity)).foldl
        (fun acc r => _merge_duplicate_dispute acc r.dispute_id 5)
        (⟨[], [], [⟨5, 1, none⟩, ⟨7, 1, none⟩], [], [], [⟨7, some 1, "E7", "m"⟩], 8, 1, 1⟩ : DB) ∧
    _merge_similar_disputes (fun _ _ => 0)
      (⟨[], [], [⟨5, 1, none⟩, ⟨7, 1, none⟩], [], [], [⟨7, some 1, "E7", "m"⟩], 8, 1, 1⟩ : DB)
      5 1 "[q]" 2 =
      (⟨[], [], [⟨5, 1, none⟩, ⟨7, 1, none⟩], [], [], [⟨7, some 1, "E7", "m"⟩], 8, 1, 1⟩ : DB) :=
  ⟨(C2_merge_sweep (fun _ _ => 0)
      (⟨[], [], [⟨5, 1, none⟩, ⟨7, 1, none⟩], [], [], [⟨7, some 1, "E7", "m"⟩], 8, 1, 1⟩ : DB)
      5 1 "[q]" (mkRat 41 50)).1,
   (C2_merge_sweep (fun _ _ => 0)
      (⟨[], [], [⟨5, 1, none⟩, ⟨7, 1, none⟩], [], [], [⟨7, some 1, "E7", "m"⟩], 8, 1, 1⟩ : DB)
      5 1 "[q]" 2).2 (by decide!)⟩

/-! ## Claim C8 -/

/-- **C8**: `embed_text` raises `ValueError` when the provider returns no
data, and when the embedding step of `store_dispute_document` raises (the
fast path having missed), the call returns that error and the committed
state is the original one — no partial writes survive (the transaction
rolls back; rollback semantics per spec sections 5 and 7, the connection
scope itself living in `db/db.py` outside the sources). -/
theorem C8_failure_atomicity (dist : String → String → ℚ) (resp : String → List (List ℚ))
    (modelEnv thrEnv : Option String) (pyfloat : String → Except PyErr ℚ)
    (email : EmailDict) (db : DB) (s : Nat) (err : PyErr)
    (hsup : email.supplier_id = some s)
    (hmiss : _find_dispute_by_text db s (renderText email) = none)
    (hembed : embed_text (resp (renderText email)) = .error err) :
    store_dispute_document dist resp modelEnv thrEnv pyfloat email db = .error err ∧
    store_dispute_document_run dist resp modelEnv thrEnv pyfloat email db = db ∧
    embed_text ([] : List (List ℚ)) =
      .error (.valueError "Embedding API returned no data; cannot store vector.") ∧
    embed_text [([] : List ℚ)] =
      .error (.valueError "Embedding API returned no data; cannot store vector.") := by
  have hne : ((some s : Option Nat) = none) = False := by simp
  have h1 : store_dispute_document dist resp modelEnv thrEnv pyfloat email db = .error err := by
    unfold store_dispute_document _resolve_supplier_id
    rw [hsup]
    dsimp only
    simp only [hne, if_false]
    rw [hmiss, hembed]
  refine ⟨h1, ?_, rfl, rfl⟩
  unfold store_dispute_document_run
  rw [h1]

theorem C8_failure_atomicity_witness :
    store_dispute_document (fun _ _ => 0) (fun _ => []) none none
      (fun _ => .error (.valueError "x")) ⟨"e1", some 1, "snd", "subj", "body", "date"⟩
      (⟨[⟨1, "S"⟩], [⟨"e1", some 1⟩], [], [], [], [], 1, 1, 2⟩ : DB) =
      .error (.valueError "Embedding API returned no data; cannot store vector.") ∧
    store_dispute_document_run (fun _ _ => 0) (fun _ => []) none none
      (fun _ => .error (.valueError "x")) ⟨"e1", some 1, "snd", "subj", "body", "date"⟩
      (⟨[⟨1, "S"⟩], [⟨"e1", some 1⟩], [], [], [], [], 1, 1, 2⟩ : DB) =
      (⟨[⟨1, "S"⟩], [⟨"e1", some 1⟩], [], [], [], [], 1, 1, 2⟩ : DB) := by
  have h := C8_failure_atomicity (fun _ _ => 0) (fun _ => []) none none
    (fun _ => .error (.valueError "x")) ⟨"e1", some 1, "snd", "subj", "body", "date"⟩
    (⟨[⟨1, "S"⟩], [⟨"e1", some 1⟩], [], [], [], [], 1, 1, 2⟩ : DB) 1
    (.valueError "Embedding API returned no data; cannot store vector.")
    rfl (by decide) rfl
  exact ⟨h.1, h.2.1⟩

/-! ## Claim C4 -/

theorem ite_setSummary_docs (db : DB) (tgt : Nat) (v : Option String)
    (c : Prop) [Decidable c] :
    (if c then setSummary db tgt v else db).dispute_documents = db.dispute_documents := by
  split <;> rfl

/-- Invariant of the document loop of a merge: starting from distinct
document ids, pairwise-distinct `(dispute_id, document_text)` pairs, and a
snapshot whose ids determine their texts, the loop preserves id-distinctness
and pair-distinctness (the dedup check deletes a source copy exactly when
the target already holds the text, and a moved copy cannot collide by the
same check). -/
theorem mergeDocs_fold_invariant (tgt : Nat) :
    ∀ (S : List DocRow) (db : DB),
      (db.dispute_documents.map (fun d => d.id)).Nodup →
      db.dispute_documents.Pairwise
        (fun a b => a.dispute_id = b.dispute_id → a.document_text ≠ b.document_text) →
      (∀ y ∈ db.dispute_documents, ∀ x ∈ S, y.id = x.id → y.document_text = x.document_text) →
      ((S.foldl (mergeDocStep tgt) db).dispute_documents.map (fun d => d.id)).Nodup ∧
      (S.foldl (mergeDocStep tgt) db).dispute_documents.Pairwise
        (fun a b => a.dispute_id = b.dispute_id → a.document_text ≠ b.document_text) := by
  intro S
  induction S with
  | nil => intro db h1 h2 _; exact ⟨h1, h2⟩
  | cons x xs ih =>
    intro db h1 h2 h3
    rw [List.foldl_cons]
    have hx_text : ∀ y ∈ db.dispute_documents, y.id = x.id →
        y.document_text = x.document_text := by
      intro y hy hid
      exact h3 y hy x (List.mem_cons_self x xs) hid
    have h3x : ∀ y ∈ db.dispute_documents, ∀ z ∈ xs, y.id = z.id →
        y.document_text = z.document_text := by
      intro y hy z hz
      exact h3 y hy z (List.mem_cons_of_mem x hz)
    have key : ((mergeDocStep tgt db x).dispute_documents.map (fun d => d.id)).Nodup ∧
        (mergeDocStep tgt db x).dispute_documents.Pairwise
          (fun a b => a.dispute_id = b.dispute_id → a.document_text ≠ b.document_text) ∧
        (∀ y ∈ (mergeDocStep tgt db x).dispute_documents, ∀ z ∈ xs,
          y.id = z.id → y.document_text = z.document_text) := by
      unfold mergeDocStep
      split
      · -- target already holds the text: the source copy is deleted
        refine ⟨?_, ?_, ?_⟩
        · exact List.Nodup.sublist (List.Sublist.map _ (List.filter_sublist _)) h1
        · exact List.Pairwise.sublist (List.filter_sublist _) h2
        · intro y hy z hz hid
          exact h3x y (List.mem_of_mem_filter hy) z hz hid
      · -- no identical text under the target: the copy is re-parented
        rename_i hex
        have hno : ∀ d ∈ db.dispute_documents,
            ¬(d.dispute_id = tgt ∧ d.document_text = x.document_text) := by
          intro d hd hcontra
          apply hex
          unfold _document_exists
          rw [List.any_eq_true]
          exact ⟨d, hd, by simp [hcontra.1, hcontra.2]⟩
        have hid_pres : ∀ d : DocRow,
            ((if d.id = x.id then { d with dispute_id := tgt } else d) : DocRow).id = d.id := by
          intro d; split <;> rfl
        have htext_pres : ∀ d : DocRow,
            ((if d.id = x.id then { d with dispute_id := tgt } else d) : DocRow).document_text =
              d.document_text := by
          intro d; split <;> rfl
        have hdisp_pres : ∀ d : DocRow, d.id ≠ x.id →
            ((if d.id = x.id then { d with dispute_id := tgt } else d) : DocRow) = d := by
          intro d hd; rw [if_neg hd]
        refine ⟨?_, ?_, ?_⟩
        · rw [List.map_map]
          have hcomp : ((fun d => d.id) ∘ fun (d : DocRow) =>
              if d.id = x.id then { d with dispute_id := tgt } else d) = fun d => d.id := by
            funext d
            exact hid_pres d
          rw [hcomp]
          exact h1
        · rw [List.pairwise_map]
          have hpw_ids : db.dispute_documents.Pairwise (fun a b => a.id ≠ b.id) :=
            List.pairwise_map.mp h1
          refine List.Pairwise.imp_of_mem ?_ (h2.and hpw_ids)
          intro a b ha hb hab
          obtain ⟨hR, hid⟩ := hab
          by_cases haid : a.id = x.id
          · by_cases hbid : b.id = x.id
            · exact absurd (haid.trans hbid.symm) hid
            · rw [if_pos haid, if_neg hbid]
              intro hdisp htext
              exact hno b hb ⟨hdisp.symm, htext.symm.trans (hx_text a ha haid)⟩
          · by_cases hbid : b.id = x.id
            · rw [if_neg haid, if_pos hbid]
              intro hdisp htext
              exact hno a ha ⟨hdisp, htext.trans (hx_text b hb hbid)⟩
            · rw [if_neg haid, if_neg hbid]
              exact hR
        · intro y hy z hz hid
          rw [List.mem_map] at hy
          obtain ⟨y0, hy0, rfl⟩ := hy
          rw [htext_pres y0]
          exact h3x y0 hy0 z hz ((hid_pres y0).symm.trans hid)
    obtain ⟨k1, k2, k3⟩ := key
    exact ih (mergeDocStep tgt db x) k1 k2 k3

/-- **C4**: after `merge(source, target)` on a state with distinct document
ids, no two `DisputeDocument` rows share the same
`(dispute_id, document_text)` pair, the source `dispute_id` no longer
exists in `CanonicalDispute`, and every `DisputeEmailLink` and
`DisputeEmbedding` previously owned by the source now points at the target
(each row relocated in place, never duplicated: the link and embedding
tables are exactly the original tables with `source` re-pointed to
`target`). -/
theorem C4_merge_closure (db : DB) (src tgt : Nat)
    (_hne : src ≠ tgt) (hids : DocIdsNodup db) (hpairs : DocPairsDistinct db) :
    DocPairsDistinct (_merge_duplicate_dispute db src tgt) ∧
    (∀ c ∈ (_merge_duplicate_dispute db src tgt).canonical_disputes, c.dispute_id ≠ src) ∧
    (_merge_duplicate_dispute db src tgt).dispute_emails =
      db.dispute_emails.map (fun (l : LinkRow) =>
        if l.dispute_id = src then { l with dispute_id := tgt } else l) ∧
    (_merge_duplicate_dispute db src tgt).dispute_embeddings =
      db.dispute_embeddings.map (fun (e : EmbRow) =>
        if e.dispute_id = src then { e with dispute_id := tgt } else e) := by
  refine ⟨?_, ?_, merge_links db src tgt, merge_embs db src tgt⟩
  · have hfold : (_merge_duplicate_dispute db src tgt).dispute_documents =
        ((db.dispute_documents.filter (fun d => d.dispute_id == src)).foldl (mergeDocStep tgt)
          { (if mergeSummaryCond db src tgt then setSummary db tgt (summaryOf db src) else db) with
            dispute_emails :=
              (if mergeSummaryCond db src tgt then setSummary db tgt (summaryOf db src)
                else db).dispute_emails.map (fun (l : LinkRow) =>
                  if l.dispute_id = src then { l with dispute_id := tgt } else l)
          }).dispute_documents := by
      unfold _merge_duplicate_dispute mergeSummaryCond
      dsimp only
      rw [ite_setSummary_docs]
    unfold DocPairsDistinct
    rw [hfold]
    refine (mergeDocs_fold_invariant tgt _ _ ?_ ?_ ?_).2
    · dsimp only
      rw [ite_setSummary_docs]
      exact hids
    · dsimp only
      rw [ite_setSummary_docs]
      exact hpairs
    · dsimp only
      rw [ite_setSummary_docs]
      intro y hy z hz hid
      have hz' : z ∈ db.dispute_documents := List.mem_of_mem_filter hz
      have := List.inj_on_of_nodup_map hids hy hz' hid
      rw [this]
  · intro c hc
    rw [merge_canonical] at hc
    have := List.of_mem_filter hc
    simpa using this

theorem C4_merge_closure_witness :
    DocPairsDistinct (_merge_duplicate_dispute
      (⟨[], [], [⟨1, 1, none⟩, ⟨2, 1, none⟩], [⟨2, "a"⟩],
        [⟨1, 1, some 1, "t1"⟩, ⟨2, 2, some 1, "t1"⟩, ⟨3, 2, some 1, "t2"⟩],
        [⟨2, some 1, "E", "m"⟩], 3, 4, 2⟩ : DB) 2 1) ∧
    (∀ c ∈ (_merge_duplicate_dispute
      (⟨[], [], [⟨1, 1, none⟩, ⟨2, 1, none⟩], [⟨2, "a"⟩],
        [⟨1, 1, some 1, "t1"⟩, ⟨2, 2, some 1, "t1"⟩, ⟨3, 2, some 1, "t2"⟩],
        [⟨2, some 1, "E", "m"⟩], 3, 4, 2⟩ : DB) 2 1).canonical_disputes, c.dispute_id ≠ 2) ∧
    (_merge_duplicate_dispute
      (⟨[], [], [⟨1, 1, none⟩, ⟨2, 1, none⟩], [⟨2, "a"⟩],
        [⟨1, 1, some 1, "t1"⟩, ⟨2, 2, some 1, "t1"⟩, ⟨3, 2, some 1, "t2"⟩],
        [⟨2, some 1, "E", "m"⟩], 3, 4, 2⟩ : DB) 2 1).dispute_emails =
      (⟨[], [], [⟨1, 1, none⟩, ⟨2, 1, none⟩], [⟨2, "a"⟩],
        [⟨1, 1, some 1, "t1"⟩, ⟨2, 2, some 1, "t1"⟩, ⟨3, 2, some 1, "t2"⟩],
        [⟨2, some 1, "E", "m"⟩], 3, 4, 2⟩ : DB).dispute_emails.map (fun (l : LinkRow) =>
          if l.dispute_id = 2 then { l with dispute_id := 1 } else l) ∧
    (_merge_duplicate_dispute
      (⟨[], [], [⟨1, 1, none⟩, ⟨2, 1, none⟩], [⟨2, "a"⟩],
        [⟨1, 1, some 1, "t1"⟩, ⟨2, 2, some 1, "t1"⟩, ⟨3, 2, some 1, "t2"⟩],
        [⟨2, some 1, "E", "m"⟩], 3, 4, 2⟩ : DB) 2 1).dispute_embeddings =
      (⟨[], [], [⟨1, 1, none⟩, ⟨2, 1, none⟩], [⟨2, "a"⟩],
        [⟨1, 1, some 1, "t1"⟩, ⟨2, 2, some 1, "t1"⟩, ⟨3, 2, some 1, "t2"⟩],
        [⟨2, some 1, "E", "m"⟩], 3, 4, 2⟩ : DB).dispute_embeddings.map (fun (e : EmbRow) =>
          if e.dispute_id = 2 then { e with dispute_id := 1 } else e) :=
  C4_merge_closure
    (⟨[], [], [⟨1, 1, none⟩, ⟨2, 1, none⟩], [⟨2, "a"⟩],
      [⟨1, 1, some 1, "t1"⟩, ⟨2, 2, some 1, "t1"⟩, ⟨3, 2, some 1, "t2"⟩],
      [⟨2, some 1, "E", "m"⟩], 3, 4, 2⟩ : DB) 2 1 (by decide) (by decide) (by decide)

/-! ## Machinery for the idempotency and exact-text claims -/

theorem length_stableInsert (lt : α → α → Bool) (x : α) :
    ∀ l : List α, (stableInsert lt x l).length = l.length + 1 := by
  intro l
  induction l with
  | nil => rfl
  | cons y ys ih =>
    unfold stableInsert
    split
    · rfl
    · simp [ih]

theorem length_stableSort (lt : α → α → Bool) (l : List α) :
    (stableSort lt l).length = l.length := by
  unfold stableSort
  suffices h : ∀ (l : List α) (acc : List α),
      (l.foldl (fun acc x => stableInsert lt x acc) acc).length = acc.length + l.length by
    simpa using h l []
  intro l
  induction l with
  | nil => intro acc; simp
  | cons x xs ih =>
    intro acc
    rw [List.foldl_cons, ih, length_stableInsert]
    simp [List.length_cons]
    omega

theorem stableSort_eq_nil_iff (lt : α → α → Bool) (l : List α) :
    stableSort lt l = [] ↔ l = [] := by
  constructor
  · intro h
    have := length_stableSort lt l
    rw [h] at this
    exact List.length_eq_zero.mp this.symm
  · intro h; subst h; rfl

theorem mem_stableInsert (lt : α → α → Bool) (x : α) :
    ∀ (l : List α) (y : α), y ∈ stableInsert lt x l ↔ y = x ∨ y ∈ l := by
  intro l
  induction l with
  | nil => intro y; simp [stableInsert]
  | cons z zs ih =>
    intro y
    unfold stableInsert
    split
    · simp
    · rw [List.mem_cons, ih, List.mem_cons]
      tauto

theorem mem_stableSort (lt : α → α → Bool) (l : List α) (y : α) :
    y ∈ stableSort lt l ↔ y ∈ l := by
  unfold stableSort
  suffices h : ∀ (l acc : List α),
      y ∈ l.foldl (fun acc x => stableInsert lt x acc) acc ↔ y ∈ acc ∨ y ∈ l by
    simpa using h l []
  intro l
  induction l with
  | nil => intro acc; simp
  | cons x xs ih =>
    intro acc
    rw [List.foldl_cons, ih, mem_stableInsert]
    simp
    tauto

theorem find?_append_left_none (p : α → Bool) (l l' : List α)
    (h : l.find? p = none) : (l ++ l').find? p = l'.find? p := by
  induction l with
  | nil => rfl
  | cons a as ih =>
    rw [List.cons_append]
    cases hp : p a with
    | true =>
      rw [List.find?_cons_of_pos _ hp] at h
      exact absurd h (Option.some_ne_none a)
    | false =>
      have hp2 : ¬p a = true := by simp [hp]
      rw [List.find?_cons_of_neg _ hp2] at h
      rw [List.find?_cons_of_neg _ hp2]
      exact ih h

theorem filter_map_comm {f : α → α} {p : α → Bool} (hp : ∀ a, p (f a) = p a) :
    ∀ l : List α, (l.map f).filter p = (l.filter p).map f := by
  intro l
  induction l with
  | nil => rfl
  | cons a as ih =>
    rw [List.map_cons, List.filter_cons, List.filter_cons, hp a]
    cases hpa : p a with
    | true => simp only [if_true, List.map_cons, ih]
    | false => simp only [Bool.false_eq_true, if_false, ih]

/-- No `dispute_emails` row links this email yet. -/
def EmailUnlinked (db : DB) (e : String) : Prop :=
  ∀ l ∈ db.dispute_emails, l.email_id ≠ e

instance (db : DB) (e : String) : Decidable (EmailUnlinked db e) := by
  unfold EmailUnlinked; infer_instance

theorem unlinked_find?_none (db : DB) (e : String) (h : EmailUnlinked db e) :
    db.dispute_emails.find? (fun l => l.email_id == e) = none := by
  rw [List.find?_eq_none]
  intro l hl
  simp [h l hl]

theorem unlinked_any_false (db : DB) (e : String) (h : EmailUnlinked db e) :
    db.dispute_emails.any (fun l => l.email_id == e) = false := by
  rw [List.any_eq_false]
  intro l hl
  simp [h l hl]

/-- Supplier resolution is stable: re-resolving against any state with the
same suppliers table yields the same supplier id and no new write. -/
theorem resolve_stable (db db' : DB) (x : Option Nat)
    (hsup : db'.suppliers = (_resolve_supplier_id db x).2.suppliers) :
    _resolve_supplier_id db' x = ((_resolve_supplier_id db x).1, db') := by
  cases x with
  | some s => rfl
  | none =>
    unfold _resolve_supplier_id _default_supplier_id at *
    cases hlook : (stableSort (fun a b => decide (a.supplier_id < b.supplier_id))
        (db.suppliers.filter (fun s => s.name == "Unknown Supplier"))).head? with
    | some row =>
      rw [hlook] at hsup
      dsimp only at hsup
      dsimp only
      rw [hsup]
      rw [hlook]
    | none =>
      rw [hlook] at hsup
      dsimp only at hsup
      have hnil : db.suppliers.filter (fun s => s.name == "Unknown Supplier") = [] :=
        (stableSort_eq_nil_iff _ _).mp (List.head?_eq_none_iff.mp hlook)
      have hone : ([(⟨db.next_supplier_id, "Unknown Supplier"⟩ : SupplierRow)].filter
          (fun s => s.name == "Unknown Supplier")) =
          [⟨db.next_supplier_id, "Unknown Supplier"⟩] := by
        simp [List.filter_cons]
      dsimp only
      rw [hsup, List.filter_append, hnil, List.nil_append, hone]
      rfl

theorem setSummary_idem (db : DB) (d : Nat) (v : Option String) :
    setSummary (setSummary db d v) d v = setSummary db d v := by
  unfold setSummary
  dsimp only
  rw [List.map_map]
  congr 1
  refine List.map_congr_left ?_
  intro c _
  by_cases h : c.dispute_id = d
  · simp [Function.comp, h]
  · simp [Function.comp, h]

theorem emails_update_idem (l : List EmailRow) (e : String) (sid : Nat) :
    (l.map (fun (r : EmailRow) =>
        if r.email_id = e then { r with supplier_id := some sid } else r)).map
      (fun (r : EmailRow) => if r.email_id = e then { r with supplier_id := some sid } else r) =
    l.map (fun (r : EmailRow) =>
      if r.email_id = e then { r with supplier_id := some sid } else r) := by
  rw [List.map_map]
  refine List.map_congr_left ?_
  intro r _
  by_cases h : r.email_id = e
  · simp [Function.comp, h]
  · simp [Function.comp, h]

/-- Updating a dispute's summary from the same email twice is the same as
doing it once: the second pass sees either its own candidate (a substring
of itself) or an unchanged summary that already rejected the candidate. -/
theorem update_summary_idem (db : DB) (d : Nat) (email : EmailDict) :
    _update_dispute_summary (_update_dispute_summary db d email) d email =
      _update_dispute_summary db d email := by
  unfold _update_dispute_summary
  dsimp only
  generalize pyTake 280 (pyStrip (if email.subject = "" then email.body else email.subject)) = cand
  by_cases hcand : cand = ""
  · subst hcand
    simp
  · rw [if_neg hcand, if_neg hcand]
    by_cases hf : pyFalsy (summaryOf db d) = true
    · rw [if_pos hf]
      rw [summaryOf_setSummary]
      cases hfind : (db.canonical_disputes.find? (fun c => c.dispute_id == d)).isSome with
      | true =>
        have h1 : (if (true : Bool) = true then some cand else (none : Option String)) =
            some cand := rfl
        rw [h1]
        have h2 : pyFalsy (some cand) = false := by simp [pyFalsy, hcand]
        rw [h2]
        have h4 : ¬((false : Bool) = true) := by simp
        rw [if_neg h4]
        rw [Option.getD_some, pyContains_self]
        simp
      | false =>
        have h1 : (if (false : Bool) = true then some cand else (none : Option String)) =
            none := rfl
        rw [h1]
        have h2 : pyFalsy (none : Option String) = true := rfl
        rw [h2]
        have h3 : ((true : Bool) = true) := rfl
        rw [if_pos h3]
        exact setSummary_idem db d (some cand)
    · rw [if_neg hf]
      by_cases hcond : (!pyContains (pyLower ((summaryOf db d).getD "")) (pyLower cand) &&
          decide (((summaryOf db d).getD "").length ≤ cand.length)) = true
      · rw [if_pos hcond]
        have hissome : (db.canonical_disputes.find? (fun c => c.dispute_id == d)).isSome = true := by
          unfold summaryOf at hf
          cases hfind : db.canonical_disputes.find? (fun c => c.dispute_id == d) with
          | none => rw [hfind] at hf; exact absurd rfl hf
          | some c => rfl
        rw [summaryOf_setSummary, hissome]
        have h3 : ((true : Bool) = true) := rfl
        rw [if_pos h3]
        have h2 : pyFalsy (some cand) = false := by simp [pyFalsy, hcand]
        rw [h2]
        have h4 : ¬((false : Bool) = true) := by simp
        rw [if_neg h4]
        rw [Option.getD_some, pyContains_self]
        simp
      · rw [if_neg hcond]
        rw [if_neg hf, if_neg hcond]

theorem link_insert (db : DB) (d : Nat) (e : String)
    (h : db.dispute_emails.any (fun l => l.email_id == e) = false) :
    _link_email_to_dispute db d e =
      { db with dispute_emails := db.dispute_emails ++ [⟨d, e⟩] } := by
  unfold _link_email_to_dispute
  rw [h]
  simp

theorem link_noop (db : DB) (d : Nat) (e : String)
    (h : db.dispute_emails.any (fun l => l.email_id == e) = true) :
    _link_email_to_dispute db d e = db := by
  unfold _link_email_to_dispute
  rw [h]
  simp

theorem link_insert2 (db : DB) (d : Nat) (e : String) (l0 : List LinkRow)
    (hl : db.dispute_emails = l0)
    (h : l0.any (fun l => l.email_id == e) = false) :
    _link_email_to_dispute db d e =
      { db with dispute_emails := db.dispute_emails ++ [⟨d, e⟩] } := by
  apply link_insert
  rw [hl]
  exact h

theorem nearestRows_mem (dist : String → String → ℚ) (db : DB) (s : Nat) (lit : String)
    (k : Nat) (excl : Option Nat) (r : OracleRow)
    (hr : r ∈ nearestRows dist db s lit k excl) :
    ∃ emb ∈ db.dispute_embeddings, emb.supplier_id = some s ∧ emb.dispute_id = r.dispute_id ∧
      (∀ dd, excl = some dd → r.dispute_id ≠ dd) := by
  unfold nearestRows at hr
  rw [List.mem_map] at hr
  obtain ⟨e, he, rfl⟩ := hr
  have he2 := List.mem_of_mem_take he
  rw [mem_stableSort] at he2
  obtain ⟨hmem, hpred⟩ := List.mem_filter.mp he2
  rw [Bool.and_eq_true] at hpred
  refine ⟨e, hmem, ?_, rfl, ?_⟩
  · have := hpred.1
    simpa using this
  · intro dd hdd hcontra
    subst hdd
    have h2 := hpred.2
    simp at h2
    exact h2 hcontra

/-- Canonicalization of a fresh email with a resolved supplier: the result
is some dispute id `d` together with the incoming state plus possibly one
new canonical row, and with the `(d, email_id)` link appended; the chosen
`d` either carries a same-supplier embedding (reuse by similarity) or is a
brand-new dispute id no stored document references (creation). -/
theorem ensure_unlinked_spec (dist : String → String → ℚ) (db : DB) (email : EmailDict)
    (lit : String) (thr : ℚ) (sid : Nat)
    (hsup : email.supplier_id = some sid)
    (hunl : EmailUnlinked db email.email_id)
    (hfresh : ∀ doc ∈ db.dispute_documents, doc.dispute_id ≠ db.next_dispute_id) :
    ∃ (d : Nat) (dbC : DB),
      _ensure_dispute dist db email lit thr =
        .ok (d, { dbC with dispute_emails := dbC.dispute_emails ++ [⟨d, email.email_id⟩] }) ∧
      dbC.dispute_emails = db.dispute_emails ∧
      dbC.dispute_documents = db.dispute_documents ∧
      dbC.dispute_embeddings = db.dispute_embeddings ∧
      dbC.suppliers = db.suppliers ∧
      dbC.emails = db.emails ∧
      ((∃ emb ∈ db.dispute_embeddings, emb.supplier_id = some sid ∧ emb.dispute_id = d) ∨
        (∀ doc ∈ db.dispute_documents, doc.dispute_id ≠ d)) := by
  have hany : db.dispute_emails.any (fun l => l.email_id == email.email_id) = false :=
    unlinked_any_false db email.email_id hunl
  unfold _ensure_dispute
  rw [unlinked_find?_none db email.email_id hunl, hsup]
  dsimp only
  cases hm : (nearestRows dist db sid lit 1 none).head? with
  | some m =>
    have hmem : m ∈ nearestRows dist db sid lit 1 none := by
      cases hl : nearestRows dist db sid lit 1 none with
      | nil => rw [hl] at hm; exact absurd hm (by simp)
      | cons a as =>
        rw [hl, List.head?_cons] at hm
        rw [Option.some.injEq] at hm
        rw [← hm]
        exact List.mem_cons_self a as
    by_cases hs : thr ≤ m.similarity
    · refine ⟨m.dispute_id, db, ?_, rfl, rfl, rfl, rfl, rfl, .inl ?_⟩
      · dsimp only
        rw [if_pos hs]
        dsimp only
        rw [link_insert db m.dispute_id email.email_id hany]
      · obtain ⟨emb, hembmem, hsup2, hdisp, _⟩ := nearestRows_mem dist db sid lit 1 none m hmem
        exact ⟨emb, hembmem, hsup2, hdisp⟩
    · refine ⟨db.next_dispute_id,
        { db with
          canonical_disputes :=
            db.canonical_disputes ++ [⟨db.next_dispute_id, sid, some email.subject⟩],
          next_dispute_id := db.next_dispute_id + 1 }, ?_, rfl, rfl, rfl, rfl, rfl, .inr hfresh⟩
      dsimp only
      rw [if_neg hs]
      dsimp only
      refine congrArg Except.ok (congrArg (Prod.mk db.next_dispute_id) ?_)
      exact link_insert2 _ db.next_dispute_id email.email_id db.dispute_emails rfl hany
  | none =>
    refine ⟨db.next_dispute_id,
      { db with
        canonical_disputes :=
          db.canonical_disputes ++ [⟨db.next_dispute_id, sid, some email.subject⟩],
        next_dispute_id := db.next_dispute_id + 1 }, ?_, rfl, rfl, rfl, rfl, rfl, .inr hfresh⟩
    dsimp only
    refine congrArg Except.ok (congrArg (Prod.mk db.next_dispute_id) ?_)
    exact link_insert2 _ db.next_dispute_id email.email_id db.dispute_emails rfl hany

theorem ite_setSummary_links (db : DB) (tgt : Nat) (v : Option String)
    (c : Prop) [Decidable c] :
    (if c then setSummary db tgt v else db).dispute_emails = db.dispute_emails := by
  split <;> rfl

/-- The documents of a merge are those of the source-document loop, run
from the post-relink state over the snapshot of the source's documents. -/
theorem merge_docs_eq (db : DB) (src tgt : Nat) :
    (_merge_duplicate_dispute db src tgt).dispute_documents =
      ((db.dispute_documents.filter (fun d => d.dispute_id == src)).foldl (mergeDocStep tgt)
        { (if mergeSummaryCond db src tgt then setSummary db tgt (summaryOf db src) else db) with
          dispute_emails :=
            (if mergeSummaryCond db src tgt then setSummary db tgt (summaryOf db src)
              else db).dispute_emails.map (fun (l : LinkRow) =>
                if l.dispute_id = src then { l with dispute_id := tgt } else l)
        }).dispute_documents := by
  unfold _merge_duplicate_dispute mergeSummaryCond
  dsimp only
  rw [ite_setSummary_docs]

theorem find?_eq_head?_filter (p : α → Bool) (l : List α) :
    l.find? p = (l.filter p).head? := by
  induction l with
  | nil => rfl
  | cons a as ih =>
    rw [List.filter_cons]
    cases hp : p a with
    | true =>
      rw [List.find?_cons_of_pos _ hp]
      simp only [if_true, List.head?_cons]
    | false =>
      have hp2 : ¬p a = true := by simp [hp]
      rw [List.find?_cons_of_neg _ hp2]
      simp only [Bool.false_eq_true, if_false, ih]

/-- One sweep iteration: skip a below-threshold candidate, else merge it
into `d`. -/
def sweepStep (d : Nat) (thr : ℚ) (acc : DB) (row : OracleRow) : DB :=
  if row.similarity < thr then acc else _merge_duplicate_dispute acc row.dispute_id d

theorem merge_sweep_as_fold (dist : String → String → ℚ) (db : DB)
    (dispute_id supplier_id : Nat) (lit : String) (thr : ℚ) :
    _merge_similar_disputes dist db dispute_id supplier_id lit thr =
      (nearestRows dist db supplier_id lit 5 (some dispute_id)).foldl
        (sweepStep dispute_id thr) db := rfl

theorem sweep_fold_suppliers (d : Nat) (thr : ℚ) :
    ∀ (rows : List OracleRow) (db : DB),
      (rows.foldl (sweepStep d thr) db).suppliers = db.suppliers := by
  intro rows
  induction rows with
  | nil => intro db; rfl
  | cons r rs ih =>
    intro db
    rw [List.foldl_cons, ih]
    unfold sweepStep
    split
    · rfl
    · exact merge_suppliers db r.dispute_id d

theorem sweep_fold_emails (d : Nat) (thr : ℚ) :
    ∀ (rows : List OracleRow) (db : DB),
      (rows.foldl (sweepStep d thr) db).emails = db.emails := by
  intro rows
  induction rows with
  | nil => intro db; rfl
  | cons r rs ih =>
    intro db
    rw [List.foldl_cons, ih]
    unfold sweepStep
    split
    · rfl
    · exact merge_emails db r.dispute_id d

/-- Invariant of the merge document loop used by the sweep reasoning: with
a snapshot of same-supplier source documents, the loop keeps (i) every
target document on the supplier, (ii) distinct document ids, and (iii)
every resulting document traceable to an input document with the same
supplier and text, re-parented at most to the target. -/
theorem mergeDocs_fold_basic (tgt : Nat) (sid : Nat) :
    ∀ (S : List DocRow) (db : DB),
      (∀ y ∈ db.dispute_documents, ∀ x ∈ S, y.id = x.id → y.supplier_id = x.supplier_id) →
      (∀ x ∈ S, x.supplier_id = some sid) →
      (∀ doc ∈ db.dispute_documents, doc.dispute_id = tgt → doc.supplier_id = some sid) →
      ((db.dispute_documents.map (fun d2 => d2.id)).Nodup) →
      ((∀ doc ∈ (S.foldl (mergeDocStep tgt) db).dispute_documents,
          doc.dispute_id = tgt → doc.supplier_id = some sid) ∧
        (((S.foldl (mergeDocStep tgt) db).dispute_documents.map (fun d2 => d2.id)).Nodup) ∧
        (∀ doc ∈ (S.foldl (mergeDocStep tgt) db).dispute_documents,
          ∃ doc0 ∈ db.dispute_documents,
            doc0.supplier_id = doc.supplier_id ∧ doc0.document_text = doc.document_text ∧
            (doc.dispute_id = doc0.dispute_id ∨ doc.dispute_id = tgt))) := by
  intro S
  induction S with
  | nil =>
    intro db _ _ hAtD hIds
    exact ⟨hAtD, hIds, fun doc hd => ⟨doc, hd, rfl, rfl, .inl rfl⟩⟩
  | cons x xs ih =>
    intro db hSup hS hAtD hIds
    rw [List.foldl_cons]
    have hx_sup : ∀ y ∈ db.dispute_documents, y.id = x.id → y.supplier_id = x.supplier_id := by
      intro y hy hid
      exact hSup y hy x (List.mem_cons_self x xs) hid
    have hxsid : x.supplier_id = some sid := hS x (List.mem_cons_self x xs)
    have key : (∀ y ∈ (mergeDocStep tgt db x).dispute_documents, ∀ z ∈ xs,
          y.id = z.id → y.supplier_id = z.supplier_id) ∧
        (∀ doc ∈ (mergeDocStep tgt db x).dispute_documents,
          doc.dispute_id = tgt → doc.supplier_id = some sid) ∧
        (((mergeDocStep tgt db x).dispute_documents.map (fun d2 => d2.id)).Nodup) ∧
        (∀ doc ∈ (mergeDocStep tgt db x).dispute_documents,
          ∃ doc0 ∈ db.dispute_documents,
            doc0.supplier_id = doc.supplier_id ∧ doc0.document_text = doc.document_text ∧
            (doc.dispute_id = doc0.dispute_id ∨ doc.dispute_id = tgt)) := by
      unfold mergeDocStep
      split
      · refine ⟨?_, ?_, ?_, ?_⟩
        · intro y hy z hz hid
          exact hSup y (List.mem_of_mem_filter hy) z (List.mem_cons_of_mem x hz) hid
        · intro doc hd hdisp
          exact hAtD doc (List.mem_of_mem_filter hd) hdisp
        · exact List.Nodup.sublist (List.Sublist.map _ (List.filter_sublist _)) hIds
        · intro doc hd
          exact ⟨doc, List.mem_of_mem_filter hd, rfl, rfl, .inl rfl⟩
      · have hid_pres : ∀ d2 : DocRow,
            ((if d2.id = x.id then { d2 with dispute_id := tgt } else d2) : DocRow).id = d2.id := by
          intro d2; split <;> rfl
        have hsup_pres : ∀ d2 : DocRow,
            ((if d2.id = x.id then { d2 with dispute_id := tgt } else d2) : DocRow).supplier_id =
              d2.supplier_id := by
          intro d2; split <;> rfl
        have htext_pres : ∀ d2 : DocRow,
            ((if d2.id = x.id then { d2 with dispute_id := tgt } else d2) : DocRow).document_text =
              d2.document_text := by
          intro d2; split <;> rfl
        refine ⟨?_, ?_, ?_, ?_⟩
        · intro y hy z hz hid
          rw [List.mem_map] at hy
          obtain ⟨y0, hy0, rfl⟩ := hy
          rw [hsup_pres y0]
          exact hSup y0 hy0 z (List.mem_cons_of_mem x hz) ((hid_pres y0).symm.trans hid)
        · intro doc hd hdisp
          rw [List.mem_map] at hd
          obtain ⟨y0, hy0, rfl⟩ := hd
          by_cases hy0id : y0.id = x.id
          · rw [hsup_pres y0]
            rw [hx_sup y0 hy0 hy0id]
            exact hxsid
          · rw [if_neg hy0id] at hdisp ⊢
            exact hAtD y0 hy0 hdisp
        · rw [List.map_map]
          have hcomp : ((fun d2 => d2.id) ∘ fun (d2 : DocRow) =>
              if d2.id = x.id then { d2 with dispute_id := tgt } else d2) = fun d2 => d2.id := by
            funext d2
            exact hid_pres d2
          rw [hcomp]
          exact hIds
        · intro doc hd
          rw [List.mem_map] at hd
          obtain ⟨y0, hy0, rfl⟩ := hd
          by_cases hy0id : y0.id = x.id
          · rw [if_pos hy0id]
            exact ⟨y0, hy0, rfl, rfl, .inr rfl⟩
          · rw [if_neg hy0id]
            exact ⟨y0, hy0, rfl, rfl, .inl rfl⟩
    obtain ⟨k1, k2, k3, k4⟩ := key
    obtain ⟨r1, r2, r3⟩ := ih (mergeDocStep tgt db x) k1 (fun z hz => hS z (List.mem_cons_of_mem x hz)) k2 k3
    refine ⟨r1, r2, ?_⟩
    intro doc hd
    obtain ⟨doc1, hdoc1, hsupeq, htexteq, hdisp1⟩ := r3 doc hd
    obtain ⟨doc0, hdoc0, hsupeq0, htexteq0, hdisp0⟩ := k4 doc1 hdoc1
    refine ⟨doc0, hdoc0, hsupeq0.trans hsupeq, htexteq0.trans htexteq, ?_⟩
    cases hdisp1 with
    | inl h1 =>
      cases hdisp0 with
      | inl h0 => exact .inl (h1.trans h0)
      | inr h0 => exact .inr (h1.trans h0)
    | inr h1 => exact .inr h1

/-- One sweep merge step preserves the slow-path invariants: target
documents stay on the supplier, no `(supplier, text)` document appears, ids
stay distinct, the email keeps its single link to `d`, other links keep
pre-existing email ids, and documents of any dispute other than `d` trace
back to input documents of that dispute with the same supplier. -/
theorem merge_step_inv (db : DB) (c d sid : Nat) (text e : String) (links0 : List LinkRow)
    (hcd : c ≠ d)
    (hcdocs : ∀ doc ∈ db.dispute_documents, doc.dispute_id = c → doc.supplier_id = some sid)
    (hAtD : ∀ doc ∈ db.dispute_documents, doc.dispute_id = d → doc.supplier_id = some sid)
    (hNo : ∀ doc ∈ db.dispute_documents, ¬(doc.supplier_id = some sid ∧ doc.document_text = text))
    (hIds : (db.dispute_documents.map (fun d2 => d2.id)).Nodup)
    (hLF : db.dispute_emails.filter (fun l => l.email_id == e) = [⟨d, e⟩])
    (hLO : ∀ l ∈ db.dispute_emails, l.email_id ≠ e → ∃ l0 ∈ links0, l0.email_id = l.email_id) :
    (∀ doc ∈ (_merge_duplicate_dispute db c d).dispute_documents,
      doc.dispute_id = d → doc.supplier_id = some sid) ∧
    (∀ doc ∈ (_merge_duplicate_dispute db c d).dispute_documents,
      ¬(doc.supplier_id = some sid ∧ doc.document_text = text)) ∧
    (((_merge_duplicate_dispute db c d).dispute_documents.map (fun d2 => d2.id)).Nodup) ∧
    ((_merge_duplicate_dispute db c d).dispute_emails.filter
      (fun l => l.email_id == e) = [⟨d, e⟩]) ∧
    (∀ l ∈ (_merge_duplicate_dispute db c d).dispute_emails, l.email_id ≠ e →
      ∃ l0 ∈ links0, l0.email_id = l.email_id) ∧
    (∀ x, x ≠ d → ∀ doc ∈ (_merge_duplicate_dispute db c d).dispute_documents,
      doc.dispute_id = x → ∃ doc0 ∈ db.dispute_documents,
        doc0.dispute_id = x ∧ doc0.supplier_id = doc.supplier_id) := by
  set dbMid : DB := { (if mergeSummaryCond db c d then setSummary db d (summaryOf db c) else db) with
      dispute_emails := (if mergeSummaryCond db c d then setSummary db d (summaryOf db c)
        else db).dispute_emails.map (fun (l : LinkRow) =>
          if l.dispute_id = c then { l with dispute_id := d } else l) } with hdbMid
  have hdocs_eq := merge_docs_eq db c d
  rw [← hdbMid] at hdocs_eq
  have hmid_docs : dbMid.dispute_documents = db.dispute_documents := by
    rw [hdbMid]
    dsimp only
    rw [ite_setSummary_docs]
  have hS : ∀ x ∈ db.dispute_documents.filter (fun d2 => d2.dispute_id == c),
      x.supplier_id = some sid := by
    intro x hx
    obtain ⟨hmem, hpred⟩ := List.mem_filter.mp hx
    exact hcdocs x hmem (by simpa using hpred)
  have hSup : ∀ y ∈ dbMid.dispute_documents,
      ∀ x ∈ db.dispute_documents.filter (fun d2 => d2.dispute_id == c),
      y.id = x.id → y.supplier_id = x.supplier_id := by
    rw [hmid_docs]
    intro y hy x hx hid
    have hx2 := List.mem_of_mem_filter hx
    have heq := List.inj_on_of_nodup_map hIds hy hx2 hid
    rw [heq]
  have hAtD2 : ∀ doc ∈ dbMid.dispute_documents, doc.dispute_id = d →
      doc.supplier_id = some sid := by
    rw [hmid_docs]; exact hAtD
  have hIds2 : (dbMid.dispute_documents.map (fun d2 => d2.id)).Nodup := by
    rw [hmid_docs]; exact hIds
  obtain ⟨f1, f2, f3⟩ := mergeDocs_fold_basic d sid
    (db.dispute_documents.filter (fun d2 => d2.dispute_id == c)) dbMid hSup hS hAtD2 hIds2
  refine ⟨?_, ?_, ?_, ?_, ?_, ?_⟩
  · rw [hdocs_eq]; exact f1
  · rw [hdocs_eq]
    intro doc hd hcontra
    obtain ⟨doc0, hdoc0m, hsupeq, htexteq, _⟩ := f3 doc hd
    rw [hmid_docs] at hdoc0m
    exact hNo doc0 hdoc0m ⟨hsupeq.trans hcontra.1, htexteq.trans hcontra.2⟩
  · rw [hdocs_eq]; exact f2
  · rw [merge_links]
    have hp : ∀ a : LinkRow,
        (fun l : LinkRow => l.email_id == e)
          (if a.dispute_id = c then { a with dispute_id := d } else a) =
        (fun l : LinkRow => l.email_id == e) a := by
      intro a; split <;> rfl
    rw [filter_map_comm hp, hLF]
    simp only [List.map_cons, List.map_nil]
    rw [if_neg (fun h => hcd (h.symm : c = d))]
  · rw [merge_links]
    intro l hl hne2
    rw [List.mem_map] at hl
    obtain ⟨l0, hl0, rfl⟩ := hl
    have hemail : ((if l0.dispute_id = c then { l0 with dispute_id := d } else l0) :
        LinkRow).email_id = l0.email_id := by
      split <;> rfl
    rw [hemail] at hne2 ⊢
    exact hLO l0 hl0 hne2
  · intro x hx doc hd hdisp
    rw [hdocs_eq] at hd
    obtain ⟨doc0, hdoc0m, hsupeq, _, hor⟩ := f3 doc hd
    rw [hmid_docs] at hdoc0m
    cases hor with
    | inl h1 => exact ⟨doc0, hdoc0m, h1.symm.trans hdisp, hsupeq⟩
    | inr h1 => exact absurd (h1.symm.trans hdisp).symm hx

theorem unlinked_filter_nil (db : DB) (e : String) (h : EmailUnlinked db e) :
    db.dispute_emails.filter (fun l => l.email_id == e) = [] := by
  rw [List.filter_eq_nil_iff]
  intro l hl
  simp [h l hl]

/-- `_resolve_supplier_id` writes at most a supplier row: every other table
and the dispute/document sequences are unchanged. -/
theorem resolve_tables (db : DB) (x : Option Nat) :
    (_resolve_supplier_id db x).2.emails = db.emails ∧
    (_resolve_supplier_id db x).2.dispute_emails = db.dispute_emails ∧
    (_resolve_supplier_id db x).2.dispute_documents = db.dispute_documents ∧
    (_resolve_supplier_id db x).2.dispute_embeddings = db.dispute_embeddings ∧
    (_resolve_supplier_id db x).2.canonical_disputes = db.canonical_disputes ∧
    (_resolve_supplier_id db x).2.next_dispute_id = db.next_dispute_id ∧
    (_resolve_supplier_id db x).2.next_doc_id = db.next_doc_id := by
  cases x with
  | some s => exact ⟨rfl, rfl, rfl, rfl, rfl, rfl, rfl⟩
  | none =>
    unfold _resolve_supplier_id _default_supplier_id
    dsimp only
    cases hlook : (stableSort (fun a b => decide (a.supplier_id < b.supplier_id))
        (db.suppliers.filter (fun s => s.name == "Unknown Supplier"))).head? with
    | some row => exact ⟨rfl, rfl, rfl, rfl, rfl, rfl, rfl⟩
    | none => exact ⟨rfl, rfl, rfl, rfl, rfl, rfl, rfl⟩

/-- The sweep fold preserves the slow-path invariants, given that every
candidate dispute's documents (traced through the pullback base `db0`)
carry the supplier. -/
theorem sweep_fold_inv (d sid : Nat) (thr : ℚ) (text e : String) (links0 : List LinkRow)
    (db0 : DB) :
    ∀ (rows : List OracleRow) (db : DB),
      (∀ r ∈ rows, r.dispute_id ≠ d) →
      (∀ r ∈ rows, ∀ doc ∈ db0.dispute_documents, doc.dispute_id = r.dispute_id →
        doc.supplier_id = some sid) →
      (∀ doc ∈ db.dispute_documents, doc.dispute_id = d → doc.supplier_id = some sid) →
      (∀ doc ∈ db.dispute_documents,
        ¬(doc.supplier_id = some sid ∧ doc.document_text = text)) →
      ((db.dispute_documents.map (fun d2 => d2.id)).Nodup) →
      (db.dispute_emails.filter (fun l => l.email_id == e) = [⟨d, e⟩]) →
      (∀ l ∈ db.dispute_emails, l.email_id ≠ e → ∃ l0 ∈ links0, l0.email_id = l.email_id) →
      (∀ x, x ≠ d → ∀ doc ∈ db.dispute_documents, doc.dispute_id = x →
        ∃ doc0 ∈ db0.dispute_documents, doc0.dispute_id = x ∧
          doc0.supplier_id = doc.supplier_id) →
      ((∀ doc ∈ (rows.foldl (sweepStep d thr) db).dispute_documents,
          doc.dispute_id = d → doc.supplier_id = some sid) ∧
        (∀ doc ∈ (rows.foldl (sweepStep d thr) db).dispute_documents,
          ¬(doc.supplier_id = some sid ∧ doc.document_text = text)) ∧
        ((rows.foldl (sweepStep d thr) db).dispute_emails.filter
          (fun l => l.email_id == e) = [⟨d, e⟩]) ∧
        (∀ l ∈ (rows.foldl (sweepStep d thr) db).dispute_emails, l.email_id ≠ e →
          ∃ l0 ∈ links0, l0.email_id = l.email_id)) := by
  intro rows
  induction rows with
  | nil =>
    intro db _ _ hAtD hNo _ hLF hLO _
    exact ⟨hAtD, hNo, hLF, hLO⟩
  | cons r rs ih =>
    intro db hne hrsup hAtD hNo hIds hLF hLO hPull
    rw [List.foldl_cons]
    have hrd : r.dispute_id ≠ d := hne r (List.mem_cons_self r rs)
    by_cases hlt : r.similarity < thr
    · have hstep : sweepStep d thr db r = db := by
        unfold sweepStep; rw [if_pos hlt]
      rw [hstep]
      exact ih db (fun x hx => hne x (List.mem_cons_of_mem r hx))
        (fun x hx => hrsup x (List.mem_cons_of_mem r hx)) hAtD hNo hIds hLF hLO hPull
    · have hstep : sweepStep d thr db r = _merge_duplicate_dispute db r.dispute_id d := by
        unfold sweepStep; rw [if_neg hlt]
      rw [hstep]
      have hcdocs : ∀ doc ∈ db.dispute_documents, doc.dispute_id = r.dispute_id →
          doc.supplier_id = some sid := by
        intro doc hd hdisp
        obtain ⟨doc0, hd0, hdisp0, hsup0⟩ := hPull r.dispute_id hrd doc hd hdisp
        rw [← hsup0]
        exact hrsup r (List.mem_cons_self r rs) doc0 hd0 hdisp0
      obtain ⟨M1, M2, M3, M4, M5, M6⟩ :=
        merge_step_inv db r.dispute_id d sid text e links0 hrd hcdocs hAtD hNo hIds hLF hLO
      refine ih (_merge_duplicate_dispute db r.dispute_id d)
        (fun x hx => hne x (List.mem_cons_of_mem r hx))
        (fun x hx => hrsup x (List.mem_cons_of_mem r hx)) M1 M2 M3 M4 M5 ?_
      intro x hx doc hd hdisp
      obtain ⟨doc1, hd1, hdisp1, hsup1⟩ := M6 x hx doc hd hdisp
      obtain ⟨doc0, hd0, hdisp0, hsup0⟩ := hPull x hx doc1 hd1 hdisp1
      exact ⟨doc0, hd0, hdisp0, hsup0.trans hsup1⟩

/-- When the identical text is already stored for the supplier, the call
takes the fast path: it links the email and refreshes the summary, and the
result never consults the embedding provider (`resp` does not occur in it). -/
theorem store_fast_path (dist : String → String → ℚ) (resp : String → List (List ℚ))
    (modelEnv thrEnv : Option String) (pyfloat : String → Except PyErr ℚ)
    (email email2 : EmailDict) (db1 : DB) (s d : Nat)
    (hres : _resolve_supplier_id db1 email.supplier_id = (s, db1))
    (hemupd : email.supplier_id = none →
      db1.emails.map (fun (r : EmailRow) =>
        if r.email_id = email.email_id then { r with supplier_id := some s } else r) =
        db1.emails)
    (hemail2 : email2 =
      if email.supplier_id = none then { email with supplier_id := some s } else email)
    (hfind : _find_dispute_by_text db1 s (renderText email) = some d) :
    store_dispute_document dist resp modelEnv thrEnv pyfloat email db1 =
      .ok (_update_dispute_summary (_link_email_to_dispute db1 d email.email_id) d email2) := by
  unfold store_dispute_document
  dsimp only
  rw [hres]
  dsimp only
  rw [← hemail2]
  cases hx : email.supplier_id with
  | none =>
    rw [if_pos rfl]
    have hE := hemupd hx
    rw [hE]
    have hEta : ({ db1 with emails := db1.emails } : DB) = db1 := rfl
    rw [hEta]
    rw [hfind]
  | some s0 =>
    rw [if_neg (fun h => Option.noConfusion h)]
    rw [hfind]

/-- A repeat call whose email is already linked and whose summary update is
already saturated is a complete no-op. -/
theorem store_second_noop (dist : String → String → ℚ) (resp : String → List (List ℚ))
    (modelEnv thrEnv : Option String) (pyfloat : String → Except PyErr ℚ)
    (email email2 : EmailDict) (db1 : DB) (s d : Nat)
    (hres : _resolve_supplier_id db1 email.supplier_id = (s, db1))
    (hemupd : email.supplier_id = none →
      db1.emails.map (fun (r : EmailRow) =>
        if r.email_id = email.email_id then { r with supplier_id := some s } else r) =
        db1.emails)
    (hemail2 : email2 =
      if email.supplier_id = none then { email with supplier_id := some s } else email)
    (hfind : _find_dispute_by_text db1 s (renderText email) = some d)
    (hlinked : db1.dispute_emails.any (fun l => l.email_id == email.email_id) = true)
    (hsummary : _update_dispute_summary db1 d email2 = db1) :
    store_dispute_document dist resp modelEnv thrEnv pyfloat email db1 = .ok db1 := by
  rw [store_fast_path dist resp modelEnv thrEnv pyfloat email email2 db1 s d hres hemupd
    hemail2 hfind]
  rw [link_noop db1 d email.email_id hlinked, hsummary]

/-- A first call for a fresh (unlinked) email on a coherent state succeeds:
the result holds exactly one link for the email, at a dispute `d` that
`_find_dispute_by_text` now resolves for the rendered text; every other
link keeps a pre-existing email id; the suppliers and emails tables are
those written by the preamble; and the closing summary update is
saturated (running it again changes nothing). -/
theorem store_first_call (dist : String → String → ℚ) (resp : String → List (List ℚ))
    (modelEnv thrEnv : Option String) (pyfloat : String → Except PyErr ℚ)
    (email email2 : EmailDict) (db dbR dbU : DB) (s : Nat) (v : List ℚ)
    (lit : String) (thr : ℚ)
    (hres : _resolve_supplier_id db email.supplier_id = (s, dbR))
    (hdbU : dbU = if email.supplier_id = none then
        { dbR with emails := dbR.emails.map (fun (r : EmailRow) =>
            if r.email_id = email.email_id then { r with supplier_id := some s } else r) }
      else dbR)
    (hemail2 : email2 =
      if email.supplier_id = none then { email with supplier_id := some s } else email)
    (hlit : lit = _to_pgvector_literal v)
    (hthr : thr = _similarity_threshold thrEnv pyfloat)
    (hunl : EmailUnlinked db email.email_id)
    (hcoh : SameSupplierCoherent db)
    (hids : DocIdsNodup db)
    (hfresh : FreshDocDisputes db)
    (hresp : embed_text (resp (renderText email)) = .ok v) :
    ∃ (d : Nat) (db1 : DB),
      store_dispute_document dist resp modelEnv thrEnv pyfloat email db = .ok db1 ∧
      db1.dispute_emails.filter (fun l => l.email_id == email.email_id) =
        [⟨d, email.email_id⟩] ∧
      (∀ l ∈ db1.dispute_emails, l.email_id ≠ email.email_id →
        ∃ l0 ∈ db.dispute_emails, l0.email_id = l.email_id) ∧
      _find_dispute_by_text db1 s (renderText email) = some d ∧
      db1.suppliers = dbR.suppliers ∧
      db1.emails = dbU.emails ∧
      _update_dispute_summary db1 d email2 = db1 := by
  have htab := resolve_tables db email.supplier_id
  rw [hres] at htab
  dsimp only at htab
  obtain ⟨hRem, hRl, hRd, hRe, hRc, hRnd, hRndoc⟩ := htab
  have hem2id : email2.email_id = email.email_id := by
    rw [hemail2]; split <;> rfl
  have hem2sup : email2.supplier_id = some s := by
    rw [hemail2]
    cases hx : email.supplier_id with
    | none =>
      rw [if_pos rfl]
    | some s0 =>
      rw [if_neg (fun h => Option.noConfusion h)]
      have h2 : _resolve_supplier_id db (some s0) = (s, dbR) := by rw [← hx]; exact hres
      have h3 : ((s0, db) : Nat × DB) = (s, dbR) := h2
      have h4 : s = s0 := (congrArg Prod.fst h3).symm
      rw [hx, h4]
  have hUl : dbU.dispute_emails = db.dispute_emails := by
    rw [hdbU]; split
    · exact hRl
    · exact hRl
  have hUd : dbU.dispute_documents = db.dispute_documents := by
    rw [hdbU]; split
    · exact hRd
    · exact hRd
  have hUe : dbU.dispute_embeddings = db.dispute_embeddings := by
    rw [hdbU]; split
    · exact hRe
    · exact hRe
  have hUs : dbU.suppliers = dbR.suppliers := by
    rw [hdbU]; split <;> rfl
  have hUnd : dbU.next_dispute_id = db.next_dispute_id := by
    rw [hdbU]; split
    · exact hRnd
    · exact hRnd
  cases hfindU : _find_dispute_by_text dbU s (renderText email) with
  | some d0 =>
    have hanyU : dbU.dispute_emails.any (fun l => l.email_id == email.email_id) = false := by
      have hUnl : EmailUnlinked dbU email.email_id := by
        intro l hl; rw [hUl] at hl; exact hunl l hl
      exact unlinked_any_false dbU email.email_id hUnl
    have hlink := link_insert dbU d0 email.email_id hanyU
    have hlinks1 : (_update_dispute_summary (_link_email_to_dispute dbU d0 email.email_id)
        d0 email2).dispute_emails = db.dispute_emails ++ [⟨d0, email.email_id⟩] := by
      rw [(update_summary_tables _ d0 email2).2.2.1, hlink]
      dsimp only
      rw [hUl]
    have hdocs1 : (_update_dispute_summary (_link_email_to_dispute dbU d0 email.email_id)
        d0 email2).dispute_documents = db.dispute_documents := by
      rw [(update_summary_tables _ d0 email2).2.2.2.1,
        (link_email_tables dbU d0 email.email_id).2.2.2.1, hUd]
    refine ⟨d0, _update_dispute_summary (_link_email_to_dispute dbU d0 email.email_id) d0 email2,
      ?_, ?_, ?_, ?_, ?_, ?_, ?_⟩
    · unfold store_dispute_document
      dsimp only
      rw [hres]
      dsimp only
      rw [← hemail2, ← hdbU]
      rw [hfindU]
    · rw [hlinks1, List.filter_append, unlinked_filter_nil db email.email_id hunl,
        List.nil_append]
      simp
    · intro l hl hne2
      rw [hlinks1] at hl
      rcases List.mem_append.mp hl with h | h
      · exact ⟨l, h, rfl⟩
      · rw [List.mem_singleton] at h
        subst h
        exact absurd rfl hne2
    · unfold _find_dispute_by_text
      rw [hdocs1]
      unfold _find_dispute_by_text at hfindU
      rw [hUd] at hfindU
      exact hfindU
    · rw [(update_summary_tables _ d0 email2).1, (link_email_tables dbU d0 email.email_id).1]
      exact hUs
    · rw [(update_summary_tables _ d0 email2).2.1, (link_email_tables dbU d0 email.email_id).2.1]
    · exact update_summary_idem (_link_email_to_dispute dbU d0 email.email_id) d0 email2
  | none =>
    have hUnl2 : EmailUnlinked dbU email2.email_id := by
      intro l hl
      rw [hUl] at hl
      rw [hem2id]
      exact hunl l hl
    have hfreshU : ∀ doc ∈ dbU.dispute_documents, doc.dispute_id ≠ dbU.next_dispute_id := by
      intro doc hd
      rw [hUd] at hd
      rw [hUnd]
      exact hfresh doc hd
    obtain ⟨d, dbC, hens, hCl, hCd, hCe, hCs, hCem, hchoice⟩ :=
      ensure_unlinked_spec dist dbU email2 lit thr s hem2sup hUnl2 hfreshU
    set dbL : DB :=
      { dbC with dispute_emails := dbC.dispute_emails ++ [⟨d, email2.email_id⟩] } with hdbL
    have hLl : dbL.dispute_emails = db.dispute_emails ++ [⟨d, email2.email_id⟩] := by
      rw [hdbL]
      dsimp only
      rw [hCl, hUl]
    have hLd : dbL.dispute_documents = db.dispute_documents := by
      rw [hdbL]
      dsimp only
      rw [hCd, hUd]
    have hLe : dbL.dispute_embeddings = db.dispute_embeddings := by
      rw [hdbL]
      dsimp only
      rw [hCe, hUe]
    have hLs : dbL.suppliers = dbR.suppliers := by
      rw [hdbL]
      dsimp only
      rw [hCs, hUs]
    have hLem : dbL.emails = dbU.emails := by
      rw [hdbL]
      dsimp only
      rw [hCem]
    have hNoU : ∀ doc ∈ db.dispute_documents,
        ¬(doc.supplier_id = some s ∧ doc.document_text = renderText email) := by
      intro doc hd hcontra
      unfold _find_dispute_by_text at hfindU
      rw [hUd] at hfindU
      rw [Option.map_eq_none'] at hfindU
      rw [List.find?_eq_none] at hfindU
      exact hfindU doc hd (by simp [hcontra.1, hcontra.2])
    set rows := nearestRows dist dbL s lit 5 (some d) with hrows
    have hrowsne : ∀ r ∈ rows, r.dispute_id ≠ d := by
      intro r hr
      obtain ⟨emb, hembm, hsup2, hdisp, hexcl⟩ := nearestRows_mem dist dbL s lit 5 (some d) r hr
      exact hexcl d rfl
    have hrowsup : ∀ r ∈ rows, ∀ doc ∈ dbL.dispute_documents, doc.dispute_id = r.dispute_id →
        doc.supplier_id = some s := by
      intro r hr doc hd hdisp
      obtain ⟨emb, hembm, hsup2, hdisp2, _⟩ := nearestRows_mem dist dbL s lit 5 (some d) r hr
      rw [hLe] at hembm
      rw [hLd] at hd
      have hq := hcoh doc hd emb hembm (hdisp.trans hdisp2.symm)
      rw [hq, hsup2]
    have hI1 : ∀ doc ∈ dbL.dispute_documents, doc.dispute_id = d →
        doc.supplier_id = some s := by
      intro doc hd hdisp
      rw [hLd] at hd
      cases hchoice with
      | inl h =>
        obtain ⟨emb, hembm, hsup2, hdisp2⟩ := h
        rw [hUe] at hembm
        have hq := hcoh doc hd emb hembm (hdisp.trans hdisp2.symm)
        rw [hq, hsup2]
      | inr h =>
        rw [← hUd] at hd
        exact absurd hdisp (h doc hd)
    have hI2 : ∀ doc ∈ dbL.dispute_documents,
        ¬(doc.supplier_id = some s ∧ doc.document_text = renderText email) := by
      intro doc hd
      rw [hLd] at hd
      exact hNoU doc hd
    have hI3 : (dbL.dispute_documents.map (fun d2 => d2.id)).Nodup := by
      rw [hLd]; exact hids
    have hI4 : dbL.dispute_emails.filter (fun l => l.email_id == email.email_id) =
        [⟨d, email.email_id⟩] := by
      rw [hLl, hem2id, List.filter_append, unlinked_filter_nil db email.email_id hunl,
        List.nil_append]
      simp
    have hI5 : ∀ l ∈ dbL.dispute_emails, l.email_id ≠ email.email_id →
        ∃ l0 ∈ db.dispute_emails, l0.email_id = l.email_id := by
      intro l hl hne2
      rw [hLl] at hl
      rcases List.mem_append.mp hl with h | h
      · exact ⟨l, h, rfl⟩
      · rw [List.mem_singleton] at h
        subst h
        exact absurd hem2id hne2
    have hPull0 : ∀ x, x ≠ d → ∀ doc ∈ dbL.dispute_documents, doc.dispute_id = x →
        ∃ doc0 ∈ dbL.dispute_documents, doc0.dispute_id = x ∧
          doc0.supplier_id = doc.supplier_id := by
      intro x _ doc hd hdisp
      exact ⟨doc, hd, hdisp, rfl⟩
    obtain ⟨J1, J2, J4, J5⟩ := sweep_fold_inv d s thr (renderText email) email.email_id
      db.dispute_emails dbL rows dbL hrowsne hrowsup hI1 hI2 hI3 hI4 hI5 hPull0
    have hSfold : _merge_similar_disputes dist dbL d s lit thr =
        rows.foldl (sweepStep d thr) dbL := by
      rw [hrows]
      exact merge_sweep_as_fold dist dbL d s lit thr
    set dbS := _merge_similar_disputes dist dbL d s lit thr with hdbS
    rw [← hSfold] at J1 J2 J4 J5
    have hexists : _document_exists dbS d (renderText email) = false := by
      unfold _document_exists
      rw [List.any_eq_false]
      intro doc hd hpred
      rw [Bool.and_eq_true] at hpred
      have hdisp : doc.dispute_id = d := by simpa using hpred.1
      have htext : doc.document_text = renderText email := by simpa using hpred.2
      exact J2 doc hd ⟨J1 doc hd hdisp, htext⟩
    set dbI : DB := { dbS with
      dispute_documents := dbS.dispute_documents ++
        [⟨dbS.next_doc_id, d, email2.supplier_id, renderText email⟩],
      dispute_embeddings := dbS.dispute_embeddings ++
        [⟨d, email2.supplier_id, lit, modelEnv.getD "text-embedding-3-small"⟩],
      next_doc_id := dbS.next_doc_id + 1 } with hdbI
    have hlinks1 : (_update_dispute_summary dbI d email2).dispute_emails =
        dbS.dispute_emails := by
      rw [(update_summary_tables dbI d email2).2.2.1, hdbI]
    have hdocs1 : (_update_dispute_summary dbI d email2).dispute_documents =
        dbS.dispute_documents ++
          [⟨dbS.next_doc_id, d, email2.supplier_id, renderText email⟩] := by
      rw [(update_summary_tables dbI d email2).2.2.2.1, hdbI]
    refine ⟨d, _update_dispute_summary dbI d email2, ?_, ?_, ?_, ?_, ?_, ?_, ?_⟩
    · unfold store_dispute_document
      dsimp only
      rw [hres]
      dsimp only
      rw [← hemail2, ← hdbU]
      rw [hfindU]
      dsimp only
      rw [hresp]
      dsimp only
      rw [← hlit, ← hthr]
      rw [hens]
      dsimp only
      rw [← hdbS]
      rw [hexists]
      simp only [Bool.false_eq_true, if_false]
    · rw [hlinks1]
      exact J4
    · rw [hlinks1]
      exact J5
    · unfold _find_dispute_by_text
      rw [hdocs1]
      have hleft : dbS.dispute_documents.find?
          (fun d2 => d2.supplier_id == some s && d2.document_text == renderText email) =
          none := by
        rw [List.find?_eq_none]
        intro a ha hpred
        rw [Bool.and_eq_true] at hpred
        exact J2 a ha ⟨by simpa using hpred.1, by simpa using hpred.2⟩
      rw [find?_append_left_none _ _ _ hleft]
      simp [List.find?, hem2sup]
    · rw [(update_summary_tables dbI d email2).1, hdbI]
      dsimp only
      rw [hSfold, sweep_fold_suppliers d thr]
      exact hLs
    · rw [(update_summary_tables dbI d email2).2.1, hdbI]
      dsimp only
      rw [hSfold, sweep_fold_emails d thr]
      exact hLem
    · exact update_summary_idem dbI d email2

/-- **C1** — Idempotency of the public operation: storing the same email
twice (starting from a coherent state in which the email is not yet
linked and the provider returns an embedding) gives a first state `db1`
holding exactly one `dispute_emails` row for the email's id, and the
second call returns `db1` itself — so it adds no `dispute_documents` row
and no `dispute_embeddings` row beyond those present after the first
call. -/
theorem C1_idempotency (dist : String → String → ℚ) (resp : String → List (List ℚ))
    (modelEnv thrEnv : Option String) (pyfloat : String → Except PyErr ℚ)
    (email : EmailDict) (db : DB) (v : List ℚ)
    (hunl : EmailUnlinked db email.email_id)
    (hcoh : SameSupplierCoherent db)
    (hids : DocIdsNodup db)
    (hfresh : FreshDocDisputes db)
    (hresp : embed_text (resp (renderText email)) = .ok v) :
    ∃ db1 : DB,
      store_dispute_document dist resp modelEnv thrEnv pyfloat email db = .ok db1 ∧
      store_dispute_document dist resp modelEnv thrEnv pyfloat email db1 = .ok db1 ∧
      (db1.dispute_emails.filter (fun l => l.email_id == email.email_id)).length = 1 := by
  obtain ⟨d, db1, h1, hfilt, hoth, hfind, hsupp, hemails, hsum⟩ :=
    store_first_call dist resp modelEnv thrEnv pyfloat email
      (if email.supplier_id = none then
        { email with supplier_id := some (_resolve_supplier_id db email.supplier_id).1 }
      else email)
      db (_resolve_supplier_id db email.supplier_id).2
      (if email.supplier_id = none then
        { (_resolve_supplier_id db email.supplier_id).2 with
          emails := (_resolve_supplier_id db email.supplier_id).2.emails.map
            (fun (r : EmailRow) =>
              if r.email_id = email.email_id then
                { r with supplier_id := some (_resolve_supplier_id db email.supplier_id).1 }
              else r) }
      else (_resolve_supplier_id db email.supplier_id).2)
      (_resolve_supplier_id db email.supplier_id).1 v (_to_pgvector_literal v)
      (_similarity_threshold thrEnv pyfloat)
      rfl rfl rfl rfl rfl hunl hcoh hids hfresh hresp
  have hres2 := resolve_stable db db1 email.supplier_id hsupp
  have hlinked : db1.dispute_emails.any (fun l => l.email_id == email.email_id) = true := by
    have hmem : (⟨d, email.email_id⟩ : LinkRow) ∈
        db1.dispute_emails.filter (fun l => l.email_id == email.email_id) := by
      rw [hfilt]
      exact List.mem_cons_self _ _
    obtain ⟨hm, hp⟩ := List.mem_filter.mp hmem
    exact List.any_eq_true.mpr ⟨_, hm, hp⟩
  have hemupd : email.supplier_id = none →
      db1.emails.map (fun (r : EmailRow) =>
        if r.email_id = email.email_id then
          { r with supplier_id := some (_resolve_supplier_id db email.supplier_id).1 }
        else r) = db1.emails := by
    intro hx
    rw [hemails, if_pos hx]
    exact emails_update_idem _ _ _
  refine ⟨db1, h1, ?_, ?_⟩
  · exact store_second_noop dist resp modelEnv thrEnv pyfloat email
      (if email.supplier_id = none then
        { email with supplier_id := some (_resolve_supplier_id db email.supplier_id).1 }
      else email)
      db1 (_resolve_supplier_id db email.supplier_id).1 d hres2 hemupd rfl hfind hlinked hsum
  · rw [hfilt]
    rfl

theorem C1_idempotency_witness :
    EmailUnlinked ⟨[], [], [], [], [], [], 0, 0, 0⟩ "e-1" ∧
    SameSupplierCoherent ⟨[], [], [], [], [], [], 0, 0, 0⟩ ∧
    DocIdsNodup ⟨[], [], [], [], [], [], 0, 0, 0⟩ ∧
    FreshDocDisputes ⟨[], [], [], [], [], [], 0, 0, 0⟩ ∧
    embed_text ((fun _ => [[(1 : ℚ)]]) (renderText
      ⟨"e-1", some 3, "s", "Subject", "Body", "2024-01-01"⟩)) = .ok [(1 : ℚ)] ∧
    (∃ db1 : DB,
      store_dispute_document (fun _ _ => 0) (fun _ => [[(1 : ℚ)]]) none none
        (fun _ => .error (.valueError "x"))
        ⟨"e-1", some 3, "s", "Subject", "Body", "2024-01-01"⟩
        ⟨[], [], [], [], [], [], 0, 0, 0⟩ = .ok db1 ∧
      store_dispute_document (fun _ _ => 0) (fun _ => [[(1 : ℚ)]]) none none
        (fun _ => .error (.valueError "x"))
        ⟨"e-1", some 3, "s", "Subject", "Body", "2024-01-01"⟩ db1 = .ok db1 ∧
      (db1.dispute_emails.filter (fun l => l.email_id == "e-1")).length = 1) :=
  ⟨by decide, by decide, by decide, by decide, rfl,
    C1_idempotency (fun _ _ => 0) (fun _ => [[(1 : ℚ)]]) none none
      (fun _ => .error (.valueError "x"))
      ⟨"e-1", some 3, "s", "Subject", "Body", "2024-01-01"⟩
      ⟨[], [], [], [], [], [], 0, 0, 0⟩ [(1 : ℚ)]
      (by decide) (by decide) (by decide) (by decide) rfl⟩

/-- **C5** — Exact-text fast path: two distinct unlinked emails of the
same supplier whose rendered document text is identical resolve to the
same dispute id `d` — after both calls each email's single link points at
`d` — and the second call never reaches the embedding provider: its
result is the same for every provider response `resp2`, and it adds no
`dispute_documents` row and no `dispute_embeddings` row (it only links
the email and refreshes the summary before returning). -/
theorem C5_exact_text_fast_path (dist : String → String → ℚ)
    (resp : String → List (List ℚ)) (modelEnv thrEnv : Option String)
    (pyfloat : String → Except PyErr ℚ) (e1 e2 : EmailDict) (db : DB) (s : Nat) (v : List ℚ)
    (hs1 : e1.supplier_id = some s)
    (hs2 : e2.supplier_id = some s)
    (htext : renderText e2 = renderText e1)
    (hne : e2.email_id ≠ e1.email_id)
    (hunl1 : EmailUnlinked db e1.email_id)
    (hunl2 : EmailUnlinked db e2.email_id)
    (hcoh : SameSupplierCoherent db)
    (hids : DocIdsNodup db)
    (hfresh : FreshDocDisputes db)
    (hresp : embed_text (resp (renderText e1)) = .ok v) :
    ∃ (d : Nat) (db1 db2 : DB),
      store_dispute_document dist resp modelEnv thrEnv pyfloat e1 db = .ok db1 ∧
      (∀ resp2 : String → List (List ℚ),
        store_dispute_document dist resp2 modelEnv thrEnv pyfloat e2 db1 = .ok db2) ∧
      db2.dispute_documents = db1.dispute_documents ∧
      db2.dispute_embeddings = db1.dispute_embeddings ∧
      db2.dispute_emails.filter (fun l => l.email_id == e1.email_id) = [⟨d, e1.email_id⟩] ∧
      db2.dispute_emails.filter (fun l => l.email_id == e2.email_id) = [⟨d, e2.email_id⟩] := by
  obtain ⟨d, db1, h1, hfilt, hoth, hfind, hsupp, hemails, hsum⟩ :=
    store_first_call dist resp modelEnv thrEnv pyfloat e1 e1 db db db s v
      (_to_pgvector_literal v) (_similarity_threshold thrEnv pyfloat)
      (by rw [hs1]; rfl) (by rw [hs1, if_neg (fun h => Option.noConfusion h)])
      (by rw [hs1, if_neg (fun h => Option.noConfusion h)]) rfl rfl
      hunl1 hcoh hids hfresh hresp
  have hunl2b : EmailUnlinked db1 e2.email_id := by
    intro l hl heq
    have h2 : l.email_id ≠ e1.email_id := by rw [heq]; exact hne
    obtain ⟨l0, hl0, hl0e⟩ := hoth l hl h2
    exact hunl2 l0 hl0 (hl0e.trans heq)
  have hres2 : _resolve_supplier_id db1 e2.supplier_id = (s, db1) := by
    rw [hs2]
    rfl
  have hfind2 : _find_dispute_by_text db1 s (renderText e2) = some d := by
    rw [htext]; exact hfind
  have hemupd2 : e2.supplier_id = none →
      db1.emails.map (fun (r : EmailRow) =>
        if r.email_id = e2.email_id then { r with supplier_id := some s } else r) =
        db1.emails := by
    intro hx
    rw [hs2] at hx
    exact absurd hx (by simp)
  have hany2 : db1.dispute_emails.any (fun l => l.email_id == e2.email_id) = false :=
    unlinked_any_false db1 e2.email_id hunl2b
  have hlink2 := link_insert db1 d e2.email_id hany2
  set db2 := _update_dispute_summary (_link_email_to_dispute db1 d e2.email_id) d e2 with hdb2
  have hl2 : db2.dispute_emails = db1.dispute_emails ++ [⟨d, e2.email_id⟩] := by
    rw [hdb2, (update_summary_tables _ d e2).2.2.1, hlink2]
  refine ⟨d, db1, db2, h1, ?_, ?_, ?_, ?_, ?_⟩
  · intro resp2
    exact store_fast_path dist resp2 modelEnv thrEnv pyfloat e2 e2 db1 s d hres2 hemupd2
      (by rw [hs2, if_neg (fun h => Option.noConfusion h)]) hfind2
  · rw [hdb2, (update_summary_tables _ d e2).2.2.2.1,
      (link_email_tables db1 d e2.email_id).2.2.2.1]
  · rw [hdb2, (update_summary_tables _ d e2).2.2.2.2.1,
      (link_email_tables db1 d e2.email_id).2.2.2.2.1]
  · rw [hl2, List.filter_append, hfilt]
    have hno : ((⟨d, e2.email_id⟩ : LinkRow).email_id == e1.email_id) = false := by
      simp [hne]
    simp [List.filter, hno]
  · rw [hl2, List.filter_append, unlinked_filter_nil db1 e2.email_id hunl2b, List.nil_append]
    simp

theorem C5_exact_text_fast_path_witness :
    renderText ⟨"m-2", some 2, "s", "Subj", "Body", "D"⟩ =
      renderText ⟨"m-1", some 2, "s", "Subj", "Body", "D"⟩ ∧
    (∃ (d : Nat) (db1 db2 : DB),
      store_dispute_document (fun _ _ => 0) (fun _ => [[(1 : ℚ)]]) none none
        (fun _ => .error (.valueError "x")) ⟨"m-1", some 2, "s", "Subj", "Body", "D"⟩
        ⟨[], [], [], [], [], [], 0, 0, 0⟩ = .ok db1 ∧
      (∀ resp2 : String → List (List ℚ),
        store_dispute_document (fun _ _ => 0) resp2 none none
          (fun _ => .error (.valueError "x")) ⟨"m-2", some 2, "s", "Subj", "Body", "D"⟩
          db1 = .ok db2) ∧
      db2.dispute_documents = db1.dispute_documents ∧
      db2.dispute_embeddings = db1.dispute_embeddings ∧
      db2.dispute_emails.filter (fun l => l.email_id == "m-1") = [⟨d, "m-1"⟩] ∧
      db2.dispute_emails.filter (fun l => l.email_id == "m-2") = [⟨d, "m-2"⟩]) :=
  ⟨rfl,
    C5_exact_text_fast_path (fun _ _ => 0) (fun _ => [[(1 : ℚ)]]) none none
      (fun _ => .error (.valueError "x"))
      ⟨"m-1", some 2, "s", "Subj", "Body", "D"⟩ ⟨"m-2", some 2, "s", "Subj", "Body", "D"⟩
      ⟨[], [], [], [], [], [], 0, 0, 0⟩ 2 [(1 : ℚ)]
      rfl rfl rfl (by decide) (by decide) (by decide) (by decide) (by decide) (by decide) rfl⟩
